import Mathlib

/-!
# BBC Baseball Simulation: at-bat resolution and inning progression

A shallow embedding of `baseball.c` / `baseball.h`: the pseudorandom engine, the
outcome classifier, the base-state machine, the play executor and the
inning/game loop, followed by theorems about them.

Conventions of the embedding.
* C `int` values are `Int`; signed overflow (undefined in C) is outside the model.
* C `unsigned int` values are `Nat`, every operation reduced modulo `2^32`.
* The process-wide engine state (`g_rand_seed1`, `g_rand_seed2`) is an explicit
  `Rng` value threaded through every function that draws from it.
* Code whose behaviour is undefined on some input (division by zero, an
  out-of-bounds index) returns `none` there.
* `while` loops take a fuel argument and return `none` when it runs out.
* Console output is not modelled, except that the game loop records the lineup
  slot of every batter it sends to the plate.
-/

namespace Baseball

/-! ## Data model (baseball.h) -/

/-- Play result types, `PlayType` in baseball.h. -/
inductive PlayType where
  | PLAY_SINGLE
  | PLAY_DOUBLE
  | PLAY_TRIPLE
  | PLAY_HOME_RUN
  | PLAY_GROUND_OUT
  | PLAY_FLY_OUT
  | PLAY_LINE_OUT
  | PLAY_STRIKEOUT_SWINGING
  | PLAY_STRIKEOUT_CALLED
  | PLAY_WALK
  | PLAY_ERROR
  | PLAY_DOUBLE_PLAY
  | PLAY_TRIPLE_PLAY
  | PLAY_FIELDERS_CHOICE
  | PLAY_SACRIFICE_FLY
  deriving DecidableEq, Repr

open PlayType

/-- The numeric fields of `Player`; the `name` and `team` strings are only printed. -/
structure Player where
  year : Int
  batting_avg : Int
  hand : Int
  position : Int
  j_num : Int
  deriving DecidableEq, Repr

/-- The array `int bases[3]` of `GameState`: 0 = empty, nonzero = runner on base. -/
structure Bases where
  b0 : Int
  b1 : Int
  b2 : Int
  deriving DecidableEq, Repr

/-- Read `bases[i]`. -/
def Bases.get (b : Bases) (i : Fin 3) : Int :=
  if i.val = 0 then b.b0 else if i.val = 1 then b.b1 else b.b2

/-- Write `bases[i] = v`. -/
def Bases.set (b : Bases) (i : Fin 3) (v : Int) : Bases :=
  if i.val = 0 then { b with b0 := v }
  else if i.val = 1 then { b with b1 := v }
  else { b with b2 := v }

/-- Number of occupied (nonzero) bases. -/
def Bases.occupied (b : Bases) : Int :=
  (if b.b0 ≠ 0 then 1 else 0) + (if b.b1 ≠ 0 then 1 else 0) + (if b.b2 ≠ 0 then 1 else 0)

/-- Game state structure, `GameState` in baseball.h. A lineup is the list of the
players its nine pointers refer to. -/
structure GameState where
  visiting_team : List Player
  home_team : List Player
  visiting_score : Int
  home_score : Int
  inning : Int
  is_bottom : Int
  outs : Int
  bases : Bases
  visiting_hits : Int
  home_hits : Int
  visiting_errors : Int
  home_errors : Int
  current_batter : Int
  rand_seed1 : Nat
  rand_seed2 : Nat
  half_inning_runs : Int
  half_inning_hits : Int
  half_inning_errors : Int
  deriving DecidableEq, Repr

/-! ## Pseudorandom engine -/

/-- The global random state `g_rand_seed1`, `g_rand_seed2`. -/
structure Rng where
  seed1 : Nat
  seed2 : Nat
  deriving DecidableEq, Repr

/-- Conversion of an `int` to `unsigned int`. -/
def toU32 (x : Int) : Nat := (x % 4294967296).toNat

/-- Conversion of an `unsigned int` to `int` (two's complement). -/
def toI32 (x : Nat) : Int :=
  if x % 4294967296 < 2147483648 then ((x % 4294967296 : Nat) : Int)
  else ((x % 4294967296 : Nat) : Int) - 4294967296

/-- The engine state after one call of `random_number`. -/
def random_step (s : Rng) : Rng :=
  { seed1 := ((s.seed1 * 1103515245 + 12345) % 4294967296) &&& 0x7fffffff
    seed2 := ((s.seed2 * 69069 + 1) % 4294967296) &&& 0x7fffffff }

/-- `random_number(min, max)`: the value returned and the new engine state. The
operands of `%` and `+` are converted to `unsigned int`; a zero modulus is a
division by zero. -/
def random_number (s : Rng) (min max : Int) : Option (Int × Rng) :=
  let s1 := random_step s
  let combined := s1.seed1 ^^^ s1.seed2
  let m := toU32 (max - min + 1)
  if m = 0 then none
  else some (toI32 (toU32 min + combined % m), s1)

/-- One of the two `for` loops of `init_random`: mix the characters of a C string
into a seed, `seed = seed * mult + str[i]`, up to the terminating NUL. The string
is the list of its `char` values; the end of the list stands for the NUL. -/
def init_random_loop (mult : Nat) : Nat → List Int → Nat
  | seed, [] => seed
  | seed, c :: rest =>
    if c = 0 then seed
    else init_random_loop mult ((seed * mult + toU32 c) % 4294967296) rest

/-- `init_random`: the new engine state; the old one is overwritten. -/
def init_random (_old : Rng) (date_str time_str : List Int) : Rng :=
  { seed1 := init_random_loop 31 0x12345678 date_str
    seed2 := init_random_loop 37 0x87654321 time_str }

/-! ## Game initialisation and the base-state machine -/

/-- `init_game`: everything zero except `inning = 1` and the copied seeds. -/
def init_game (s : Rng) : GameState :=
  { visiting_team := []
    home_team := []
    visiting_score := 0
    home_score := 0
    inning := 1
    is_bottom := 0
    outs := 0
    bases := ⟨0, 0, 0⟩
    visiting_hits := 0
    home_hits := 0
    visiting_errors := 0
    home_errors := 0
    current_batter := 0
    rand_seed1 := s.seed1
    rand_seed2 := s.seed2
    half_inning_runs := 0
    half_inning_hits := 0
    half_inning_errors := 0 }

/-- `clear_bases`. -/
def clear_bases (g : GameState) : GameState :=
  { g with bases := ⟨0, 0, 0⟩ }

/-- One iteration of the loop of `calculate_runs_scored`, on `(runs, game)`. -/
def calculate_runs_scored_body (bases_to_advance : Int) (acc : Int × GameState) (i : Fin 3) :
    Int × GameState :=
  if acc.2.bases.get i ≠ 0 then
    let new_base := (i.val : Int) + bases_to_advance
    if new_base ≥ 3 then
      (acc.1 + 1, { acc.2 with bases := acc.2.bases.set i 0 })
    else acc
  else acc

/-- `calculate_runs_scored`: the value returned and the game state it leaves. -/
def calculate_runs_scored (g : GameState) (bases_to_advance : Int) : Int × GameState :=
  ([2, 1, 0] : List (Fin 3)).foldl (calculate_runs_scored_body bases_to_advance) (0, g)

/-- Write `new_bases[new_pos] = 1` in `advance_runners`; `new_pos < 3` has been
checked, a negative `new_pos` is out of bounds. -/
def new_bases_set (nb : Bases) (new_pos : Int) : Option Bases :=
  if new_pos = 0 then some { nb with b0 := 1 }
  else if new_pos = 1 then some { nb with b1 := 1 }
  else if new_pos = 2 then some { nb with b2 := 1 }
  else none

/-- One iteration of the loop of `advance_runners`, on `new_bases`. -/
def advance_runners_body (g : GameState) (bases_to_advance : Int) (nb : Option Bases)
    (i : Fin 3) : Option Bases :=
  match nb with
  | none => none
  | some nb =>
    if g.bases.get i ≠ 0 then
      let new_pos := (i.val : Int) + bases_to_advance
      if new_pos < 3 then new_bases_set nb new_pos else some nb
    else some nb

/-- `advance_runners`. -/
def advance_runners (g : GameState) (bases_to_advance : Int) : Option GameState :=
  match ([2, 1, 0] : List (Fin 3)).foldl (advance_runners_body g bases_to_advance)
      (some ⟨0, 0, 0⟩) with
  | none => none
  | some nb => some { g with bases := nb }

/-! ## Outcome classifier -/

/-- The hit branch of `determine_play_result`: the category for `hit_type`. -/
def hit_type_result (hit_type : Int) : PlayType :=
  if hit_type ≤ 5 then PLAY_HOME_RUN
  else if hit_type ≤ 12 then PLAY_TRIPLE
  else if hit_type ≤ 30 then PLAY_DOUBLE
  else PLAY_SINGLE

/-- The out branch of `determine_play_result`: the category for `out_type`. -/
def out_type_result (g : GameState) (out_type : Int) : PlayType :=
  if out_type ≤ 3 ∧ g.bases.b0 ≠ 0 ∧ g.outs < 2 then PLAY_DOUBLE_PLAY
  else if out_type ≤ 8 ∧ g.outs < 2 ∧ (g.bases.b1 ≠ 0 ∨ g.bases.b2 ≠ 0) then PLAY_SACRIFICE_FLY
  else if out_type ≤ 15 then PLAY_STRIKEOUT_SWINGING
  else if out_type ≤ 20 then PLAY_STRIKEOUT_CALLED
  else if out_type ≤ 25 then PLAY_WALK
  else if out_type ≤ 30 then PLAY_ERROR
  else if out_type ≤ 32 ∧ g.bases.b0 ≠ 0 then PLAY_FIELDERS_CHOICE
  else if out_type ≤ 33 ∧ g.bases.b0 ≠ 0 ∧ g.bases.b1 ≠ 0 ∧ g.outs = 0 then PLAY_TRIPLE_PLAY
  else if out_type ≤ 65 then PLAY_GROUND_OUT
  else if out_type ≤ 85 then PLAY_FLY_OUT
  else PLAY_LINE_OUT

/-- The decision tree of `determine_play_result` on the two values it draws:
`roll` and then `hit_type` or `out_type`. -/
def play_of_rolls (batter : Player) (g : GameState) (roll second : Int) : PlayType :=
  let hit_threshold := batter.batting_avg + 50
  if roll ≤ hit_threshold then hit_type_result second else out_type_result g second

/-- `determine_play_result`: draw `roll` from 1..1000, then `hit_type` or
`out_type` from 1..100, and classify. -/
def determine_play_result (batter : Player) (g : GameState) (s : Rng) :
    Option (PlayType × Rng) :=
  match random_number s 1 1000 with
  | none => none
  | some (roll, s1) =>
    let hit_threshold := batter.batting_avg + 50
    if roll ≤ hit_threshold then
      match random_number s1 1 100 with
      | none => none
      | some (hit_type, s2) => some (hit_type_result hit_type, s2)
    else
      match random_number s1 1 100 with
      | none => none
      | some (out_type, s2) => some (out_type_result g out_type, s2)

/-! ## Play executor -/

/-- A call of `random_number` whose value only selects printed text. -/
def draw (s : Rng) (min max : Int) : Option Rng :=
  match random_number s min max with
  | none => none
  | some (_, s1) => some s1

/-- The engine draws made by `print_play_result`, in order (the text is not modelled). -/
def print_play_result (s : Rng) (play : PlayType) : Option Rng :=
  match play with
  | PLAY_SINGLE => (draw s 1 10).bind fun s1 => draw s1 0 9
  | PLAY_DOUBLE => (draw s 0 4).bind fun s1 => draw s1 1 10
  | PLAY_TRIPLE => draw s 0 4
  | PLAY_HOME_RUN => (draw s 1 10).bind fun s1 => draw s1 0 2
  | PLAY_GROUND_OUT => (draw s 5 9).bind fun s1 => draw s1 1 10
  | PLAY_FLY_OUT => (draw s 0 4).bind fun s1 => draw s1 1 10
  | PLAY_LINE_OUT => draw s 5 9
  | PLAY_STRIKEOUT_SWINGING => some s
  | PLAY_STRIKEOUT_CALLED => some s
  | PLAY_WALK => some s
  | PLAY_ERROR => draw s 5 9
  | PLAY_DOUBLE_PLAY => draw s 5 9
  | PLAY_TRIPLE_PLAY => some s
  | PLAY_FIELDERS_CHOICE => some s
  | PLAY_SACRIFICE_FLY => draw s 0 4

/-- The statement `(*hits)++`, with `hits` chosen by `is_bottom`. -/
def incr_hits (g : GameState) : GameState :=
  if g.is_bottom ≠ 0 then { g with home_hits := g.home_hits + 1 }
  else { g with visiting_hits := g.visiting_hits + 1 }

/-- The statement `(*errors)++`, with `errors` chosen by `is_bottom`. -/
def incr_errors (g : GameState) : GameState :=
  if g.is_bottom ≠ 0 then { g with home_errors := g.home_errors + 1 }
  else { g with visiting_errors := g.visiting_errors + 1 }

/-- The loop of the `PLAY_HOME_RUN` case: `runs` starts at 1 and counts every occupied base. -/
def home_run_runs (g : GameState) : Int :=
  ([0, 1, 2] : List (Fin 3)).foldl
    (fun (runs : Int) (i : Fin 3) => if g.bases.get i ≠ 0 then runs + 1 else runs) 1

/-- The `PLAY_WALK` case of the switch: the state and the local `runs`. -/
def walk_case (g : GameState) : GameState × Int :=
  let r : GameState × Int :=
    if g.bases.b0 ≠ 0 ∧ g.bases.b1 ≠ 0 ∧ g.bases.b2 ≠ 0 then (g, 1)
    else if g.bases.b0 ≠ 0 ∧ g.bases.b1 ≠ 0 then ({ g with bases := g.bases.set 2 1 }, 0)
    else if g.bases.b0 ≠ 0 then ({ g with bases := g.bases.set 1 1 }, 0)
    else (g, 0)
  ({ r.1 with bases := r.1.bases.set 0 1 }, r.2)

/-- The `switch (play)` of `execute_play`: the state it leaves and the local `runs`. -/
def execute_play_switch (g : GameState) (play : PlayType) : Option (GameState × Int) :=
  match play with
  | PLAY_SINGLE =>
    let r := calculate_runs_scored g 1
    match advance_runners r.2 1 with
    | none => none
    | some g1 =>
      let g2 := incr_hits { g1 with bases := g1.bases.set 0 1 }
      some ({ g2 with half_inning_hits := g2.half_inning_hits + 1 }, r.1)
  | PLAY_DOUBLE =>
    let r := calculate_runs_scored g 2
    match advance_runners r.2 2 with
    | none => none
    | some g1 =>
      let g2 := incr_hits { g1 with bases := g1.bases.set 1 1 }
      some ({ g2 with half_inning_hits := g2.half_inning_hits + 1 }, r.1)
  | PLAY_TRIPLE =>
    let r := calculate_runs_scored g 3
    let g1 := clear_bases r.2
    let g2 := incr_hits { g1 with bases := g1.bases.set 2 1 }
    some ({ g2 with half_inning_hits := g2.half_inning_hits + 1 }, r.1)
  | PLAY_HOME_RUN =>
    let runs := home_run_runs g
    let g2 := incr_hits (clear_bases g)
    some ({ g2 with half_inning_hits := g2.half_inning_hits + 1 }, runs)
  | PLAY_WALK => some (walk_case g)
  | PLAY_ERROR =>
    let r := calculate_runs_scored g 1
    match advance_runners r.2 1 with
    | none => none
    | some g1 =>
      let g2 := incr_errors { g1 with bases := g1.bases.set 0 1 }
      some ({ g2 with half_inning_errors := g2.half_inning_errors + 1 }, r.1)
  | PLAY_DOUBLE_PLAY => some (clear_bases { g with outs := g.outs + 2 }, 0)
  | PLAY_TRIPLE_PLAY => some (clear_bases { g with outs := g.outs + 3 }, 0)
  | PLAY_FIELDERS_CHOICE =>
    match advance_runners { g with outs := g.outs + 1 } 1 with
    | none => none
    | some g1 => some ({ g1 with bases := g1.bases.set 0 1 }, 0)
  | PLAY_SACRIFICE_FLY =>
    let g1 := { g with outs := g.outs + 1 }
    if g1.bases.b2 ≠ 0 then some ({ g1 with bases := g1.bases.set 2 0 }, 1)
    else some (g1, 0)
  | PLAY_GROUND_OUT => some ({ g with outs := g.outs + 1 }, 0)
  | PLAY_FLY_OUT => some ({ g with outs := g.outs + 1 }, 0)
  | PLAY_LINE_OUT => some ({ g with outs := g.outs + 1 }, 0)
  | PLAY_STRIKEOUT_SWINGING => some ({ g with outs := g.outs + 1 }, 0)
  | PLAY_STRIKEOUT_CALLED => some ({ g with outs := g.outs + 1 }, 0)

/-- The block "Add runs to score" of `execute_play`. -/
def add_runs (g : GameState) (runs : Int) : GameState :=
  let g1 :=
    if g.is_bottom ≠ 0 then { g with home_score := g.home_score + runs }
    else { g with visiting_score := g.visiting_score + runs }
  { g1 with half_inning_runs := g1.half_inning_runs + runs }

/-- `execute_play`: the switch, the score update, the draws of `print_play_result`
and the final draw from 1..3 that decides whether the base situation is printed.
The batter is only printed. -/
def execute_play (g : GameState) (s : Rng) (play : PlayType) (_batter : Player) :
    Option (GameState × Rng) :=
  match execute_play_switch g play with
  | none => none
  | some (g1, runs) =>
    let g2 := add_runs g1 runs
    match print_play_result s play with
    | none => none
    | some s1 =>
      match draw s1 1 3 with
      | none => none
      | some s2 => some (g2, s2)

/-! ## At-bat and the inning/game loop -/

/-- The part of `play_at_bat` after the stealing step. -/
def resolve_at_bat (g : GameState) (s : Rng) (batter : Player) : Option (GameState × Rng) :=
  match determine_play_result batter g s with
  | none => none
  | some (play, s1) => execute_play g s1 play batter

/-- `play_at_bat`. Each condition of the stealing step draws first (`&&` then
short-circuits), so the second draw happens only when the first condition
fails, and the third only when the second fails too. -/
def play_at_bat (g : GameState) (s : Rng) (batter : Player) : Option (GameState × Rng) :=
  match random_number s 1 12 with
  | none => none
  | some (r1, s1) =>
    if r1 = 1 ∧ g.bases.b0 ≠ 0 ∧ ¬ (g.bases.b1 ≠ 0) ∧ g.outs < 2 then
      resolve_at_bat { g with bases := (g.bases.set 1 1).set 0 0 } s1 batter
    else
      match random_number s1 1 20 with
      | none => none
      | some (r2, s2) =>
        if r2 = 1 ∧ g.bases.b0 ≠ 0 ∧ g.bases.b1 ≠ 0 ∧ ¬ (g.bases.b2 ≠ 0) ∧ g.outs < 2 then
          resolve_at_bat { g with bases := (g.bases.set 1 1).set 0 0 } s2 batter
        else
          match random_number s2 1 25 with
          | none => none
          | some (r3, s3) =>
            if r3 = 1 ∧ g.bases.b0 ≠ 0 ∧ g.outs < 2 then
              let g1 := { g with bases := g.bases.set 0 0, outs := g.outs + 1 }
              if g1.outs ≥ 3 then some (g1, s3) else resolve_at_bat g1 s3 batter
            else resolve_at_bat g s3 batter

/-- The stealing step of `play_at_bat` on its own: the `if / else if / else if`
chain before `determine_play_result`, with the draws it makes. -/
def stealing_step (g : GameState) (s : Rng) : Option (GameState × Rng) :=
  match random_number s 1 12 with
  | none => none
  | some (r1, s1) =>
    if r1 = 1 ∧ g.bases.b0 ≠ 0 ∧ ¬ (g.bases.b1 ≠ 0) ∧ g.outs < 2 then
      some ({ g with bases := (g.bases.set 1 1).set 0 0 }, s1)
    else
      match random_number s1 1 20 with
      | none => none
      | some (r2, s2) =>
        if r2 = 1 ∧ g.bases.b0 ≠ 0 ∧ g.bases.b1 ≠ 0 ∧ ¬ (g.bases.b2 ≠ 0) ∧ g.outs < 2 then
          some ({ g with bases := (g.bases.set 1 1).set 0 0 }, s2)
        else
          match random_number s2 1 25 with
          | none => none
          | some (r3, s3) =>
            if r3 = 1 ∧ g.bases.b0 ≠ 0 ∧ g.outs < 2 then
              some ({ g with bases := g.bases.set 0 0, outs := g.outs + 1 }, s3)
            else some (g, s3)

/-- `MAX_INNINGS`. -/
def MAX_INNINGS : Int := 9

/-- `TEAM_SIZE`. -/
def TEAM_SIZE : Int := 9

/-- Read `team[i]`; an index outside the lineup is out of bounds. -/
def lineup_at (team : List Player) (i : Int) : Option Player :=
  if i < 0 then none else team.get? i.toNat

/-- The assignments that open a half-inning in `play_game`. -/
def start_half (g : GameState) (is_bottom : Int) : GameState :=
  { g with
    is_bottom := is_bottom
    outs := 0
    bases := ⟨0, 0, 0⟩
    half_inning_runs := 0
    half_inning_hits := 0
    half_inning_errors := 0 }

/-- The loop `while (game->outs < 3)` of one half-inning; `home` selects the
lineup. The third component lists the lineup index of every batter passed to
`play_at_bat`, in order. `%` is C remainder (truncating). -/
def half_inning_loop (home : Bool) : Nat → GameState → Rng →
    Option (GameState × Rng × List Int)
  | 0, g, s => if g.outs < 3 then none else some (g, s, [])
  | fuel + 1, g, s =>
    if g.outs < 3 then
      match lineup_at (if home then g.home_team else g.visiting_team) g.current_batter with
      | none => none
      | some batter =>
        match play_at_bat g s batter with
        | none => none
        | some (g1, s1) =>
          let g2 := { g1 with current_batter := Int.tmod (g1.current_batter + 1) TEAM_SIZE }
          match half_inning_loop home fuel g2 s1 with
          | none => none
          | some (g3, s3, tr) => some (g3, s3, g.current_batter :: tr)
    else some (g, s, [])

/-- The body of the loop of `play_game` up to (not including) `game->inning++`:
top half, then bottom half. Returns the batter slots of the two halves. -/
def play_inning (hf : Nat) (g : GameState) (s : Rng) :
    Option (GameState × Rng × List Int × List Int) :=
  match half_inning_loop false hf (start_half g 0) s with
  | none => none
  | some (g1, s1, tv) =>
    match half_inning_loop true hf (start_half g1 1) s1 with
    | none => none
    | some (g2, s2, th) => some (g2, s2, tv, th)

/-- `play_game`. `hf` is the fuel given to each half-inning loop, the second
argument the fuel of the inning loop. The third component of the result lists
the batter slots of each half-inning played, in order. -/
def play_game (hf : Nat) : Nat → GameState → Rng →
    Option (GameState × Rng × List (List Int))
  | 0, g, s =>
    if g.inning ≤ MAX_INNINGS ∨ g.visiting_score = g.home_score then none
    else some (g, s, [])
  | fuel + 1, g, s =>
    if g.inning ≤ MAX_INNINGS ∨ g.visiting_score = g.home_score then
      match play_inning hf g s with
      | none => none
      | some (g1, s1, tv, th) =>
        let g2 := { g1 with inning := g1.inning + 1 }
        if g2.inning > MAX_INNINGS ∧ g2.home_score ≠ g2.visiting_score then
          some (g2, s1, [tv, th])
        else
          match play_game hf fuel g2 s1 with
          | none => none
          | some (g3, s3, tr) => some (g3, s3, tv :: th :: tr)
    else some (g, s, [])

/-! ## Specification-side definitions and example inputs -/

/-- Number of occupied bases `i` with `i + n ≥ 3`: the runners an advance by `n` pushes past third. -/
def Bases.past_third (b : Bases) (n : Int) : Int :=
  (if b.b0 ≠ 0 ∧ 0 + n ≥ 3 then 1 else 0) + (if b.b1 ≠ 0 ∧ 1 + n ≥ 3 then 1 else 0)
    + (if b.b2 ≠ 0 ∧ 2 + n ≥ 3 then 1 else 0)

/-- The occupancy with every runner on a base `i` with `i + n ≥ 3` removed. -/
def Bases.remove_past_third (b : Bases) (n : Int) : Bases :=
  { b0 := if b.b0 ≠ 0 ∧ 0 + n ≥ 3 then 0 else b.b0
    b1 := if b.b1 ≠ 0 ∧ 1 + n ≥ 3 then 0 else b.b1
    b2 := if b.b2 ≠ 0 ∧ 2 + n ≥ 3 then 0 else b.b2 }

/-- All three flags are 0 or 1. -/
def Bases.flags01 (b : Bases) : Prop :=
  (b.b0 = 0 ∨ b.b0 = 1) ∧ (b.b1 = 0 ∨ b.b1 = 1) ∧ (b.b2 = 0 ∨ b.b2 = 1)

instance (b : Bases) : Decidable b.flags01 := by
  unfold Bases.flags01
  infer_instance

/-- A state with the given occupancy and outs, everything else as after `init_game`. -/
def example_state (b : Bases) (outs : Int) : GameState :=
  { init_game ⟨0, 0⟩ with bases := b, outs := outs }

/-- The fields no at-bat touches: lineups, inning, half flag, batter index, seed copies. -/
def GameState.same_setting (g g' : GameState) : Prop :=
  g'.visiting_team = g.visiting_team ∧ g'.home_team = g.home_team ∧ g'.inning = g.inning ∧
  g'.is_bottom = g.is_bottom ∧ g'.current_batter = g.current_batter ∧
  g'.rand_seed1 = g.rand_seed1 ∧ g'.rand_seed2 = g.rand_seed2

/-- The game state when `play_game` is called: `init_game`, then the two lineup
selections, which fill `visiting_team` and `home_team` and leave the rest. -/
def with_lineups (g : GameState) (v h : List Player) : GameState :=
  { g with visiting_team := v, home_team := h }

/-- The state after `k` passes through the body of the loop of `play_game`
(both halves, then `inning++`), without the exit tests. -/
def innings_played (hf : Nat) : Nat → GameState → Rng → Option (GameState × Rng)
  | 0, g, s => some (g, s)
  | k + 1, g, s =>
    match play_inning hf g s with
    | none => none
    | some (g1, s1, _, _) => innings_played hf k { g1 with inning := g1.inning + 1 } s1

/-- The slots of consecutive half-innings follow on: every half has a batter,
the first half starts at slot `c`, each later half starts at the slot after the
last batter of the half before it, and `c'` is the slot after the very last batter. -/
def halves_follow : Int → List (List Int) → Int → Prop
  | c, [], c' => c' = c
  | c, h :: hs, c' =>
    ∃ x, h.head? = some c ∧ h.getLast? = some x ∧ halves_follow (Int.tmod (x + 1) 9) hs c'

/-- A player with the given batting average (thousandths). -/
def example_player (avg : Int) : Player :=
  { year := 1950, batting_avg := avg, hand := 82, position := 0, j_num := 7 }

/-- A visiting lineup of nine. -/
def example_visitors : List Player :=
  [300, 310, 320, 330, 340, 350, 290, 280, 270].map example_player

/-- A home lineup of nine. -/
def example_home : List Player :=
  [301, 311, 321, 331, 341, 351, 291, 281, 271].map example_player

/-- The state `play_game` starts from with the two example lineups. -/
def example_start (s : Rng) : GameState :=
  with_lineups (init_game s) example_visitors example_home

/-- A final state of a game between the example lineups: scores, hits, errors,
next inning, batter index, leftover half-inning fields and the seed copies. -/
def example_final (vs hs vh hh ve he inning cb : Int) (b : Bases) (hr hhit herr : Int)
    (seed : Nat × Nat) : GameState :=
  { visiting_team := example_visitors
    home_team := example_home
    visiting_score := vs
    home_score := hs
    inning := inning
    is_bottom := 1
    outs := 3
    bases := b
    visiting_hits := vh
    home_hits := hh
    visiting_errors := ve
    home_errors := he
    current_batter := cb
    rand_seed1 := seed.1
    rand_seed2 := seed.2
    half_inning_runs := hr
    half_inning_hits := hhit
    half_inning_errors := herr }

/-- Batter slots, half by half, of the ten-inning example game (engine seeds 60, 61). -/
def example_trace_ten : List (List Int) :=
  [[0, 1, 2], [3, 4, 5, 6, 7, 8], [0, 1, 2, 3, 4], [5, 6, 7, 8], [0, 1, 2], [3, 4, 5, 6],
   [7, 8, 0, 1], [2, 3, 4, 5, 6], [7, 8, 0, 1], [2, 3, 4, 5, 6, 7],
   [8, 0, 1, 2, 3, 4, 5, 6, 7], [8, 0, 1, 2, 3, 4], [5, 6, 7, 8, 0, 1], [2, 3, 4, 5],
   [6, 7, 8, 0, 1, 2], [3, 4, 5, 6, 7, 8], [0, 1, 2, 3], [4, 5, 6, 7, 8, 0, 1],
   [2, 3, 4, 5, 6, 7], [8, 0, 1]]

/-- Batter slots, half by half, of the nine-inning example game with engine seeds 7, 7. -/
def example_trace_seven : List (List Int) :=
  [[0, 1, 2], [3, 4, 5, 6, 7], [8, 0, 1], [2, 3, 4, 5, 6], [7, 8, 0, 1, 2, 3],
   [4, 5, 6, 7, 8, 0], [1, 2, 3], [4, 5, 6, 7, 8], [0, 1, 2], [3, 4, 5], [6, 7, 8, 0],
   [1, 2, 3], [4, 5, 6, 7], [8, 0, 1, 2], [3, 4, 5, 6], [7, 8, 0, 1, 2], [3, 4, 5, 6, 7],
   [8, 0, 1, 2, 3, 4, 5, 6, 7]]

/-- Batter slots, half by half, of the nine-inning example game with engine seeds 0, 0. -/
def example_trace_zero : List (List Int) :=
  [[0, 1, 2, 3], [4, 5, 6, 7, 8], [0, 1, 2, 3, 4, 5], [6, 7, 8, 0], [1, 2, 3, 4],
   [5, 6, 7, 8], [0, 1, 2, 3, 4], [5, 6, 7, 8, 0, 1, 2, 3, 4, 5], [6, 7, 8, 0, 1, 2, 3],
   [4, 5, 6, 7], [8, 0, 1, 2, 3, 4, 5], [6, 7, 8], [0, 1, 2], [3, 4, 5],
   [6, 7, 8, 0, 1, 2], [3, 4, 5, 6, 7, 8, 0, 1], [2, 3, 4], [5, 6, 7]]

/-- The value `random_number(min, max)` returns from engine state `s`. -/
def random_value (s : Rng) (min max : Int) : Int :=
  toI32 (toU32 min + ((random_step s).seed1 ^^^ (random_step s).seed2) % toU32 (max - min + 1))

/-- The situational precondition of a play category, as the classifier tests it:
double play needs a runner on first and fewer than 2 outs, sacrifice fly fewer
than 2 outs and a runner on second or third, fielder's choice a runner on first,
triple play runners on first and second and no outs; the others need nothing. -/
def situational_precondition (g : GameState) : PlayType → Prop
  | PLAY_DOUBLE_PLAY => g.bases.b0 ≠ 0 ∧ g.outs < 2
  | PLAY_SACRIFICE_FLY => g.outs < 2 ∧ (g.bases.b1 ≠ 0 ∨ g.bases.b2 ≠ 0)
  | PLAY_FIELDERS_CHOICE => g.bases.b0 ≠ 0
  | PLAY_TRIPLE_PLAY => g.bases.b0 ≠ 0 ∧ g.bases.b1 ≠ 0 ∧ g.outs = 0
  | _ => True

/-- The fifteen play categories. -/
def all_plays : List PlayType :=
  [PLAY_SINGLE, PLAY_DOUBLE, PLAY_TRIPLE, PLAY_HOME_RUN, PLAY_GROUND_OUT, PLAY_FLY_OUT,
   PLAY_LINE_OUT, PLAY_STRIKEOUT_SWINGING, PLAY_STRIKEOUT_CALLED, PLAY_WALK, PLAY_ERROR,
   PLAY_DOUBLE_PLAY, PLAY_TRIPLE_PLAY, PLAY_FIELDERS_CHOICE, PLAY_SACRIFICE_FLY]

/-- The ordered out-branch buckets of the specification: upper end of the roll
range, whether the situational precondition holds in `g`, and the category. -/
def out_buckets (g : GameState) : List (Int × Bool × PlayType) :=
  [(3, decide (g.bases.b0 ≠ 0 ∧ g.outs < 2), PLAY_DOUBLE_PLAY),
   (8, decide (g.outs < 2 ∧ (g.bases.b1 ≠ 0 ∨ g.bases.b2 ≠ 0)), PLAY_SACRIFICE_FLY),
   (15, true, PLAY_STRIKEOUT_SWINGING),
   (20, true, PLAY_STRIKEOUT_CALLED),
   (25, true, PLAY_WALK),
   (30, true, PLAY_ERROR),
   (32, decide (g.bases.b0 ≠ 0), PLAY_FIELDERS_CHOICE),
   (33, decide (g.bases.b0 ≠ 0 ∧ g.bases.b1 ≠ 0 ∧ g.outs = 0), PLAY_TRIPLE_PLAY),
   (65, true, PLAY_GROUND_OUT),
   (85, true, PLAY_FLY_OUT)]

/-- The first bucket of a list, in order, whose range contains `r` and whose
precondition holds; line out when there is none. -/
def first_bucket_in (r : Int) : List (Int × Bool × PlayType) → PlayType
  | [] => PLAY_LINE_OUT
  | (bound, pre, play) :: rest =>
    if r ≤ bound ∧ pre = true then play else first_bucket_in r rest

/-- The specification's out-branch rule for second roll `r` in state `g`. -/
def first_bucket (g : GameState) (r : Int) : PlayType :=
  first_bucket_in r (out_buckets g)

/-- The specification's hit-branch rule on the second roll `h`. -/
def hit_bucket (h : Int) : PlayType :=
  if h ≤ 5 then PLAY_HOME_RUN
  else if 5 < h ∧ h ≤ 12 then PLAY_TRIPLE
  else if 12 < h ∧ h ≤ 30 then PLAY_DOUBLE
  else PLAY_SINGLE

/-- Single, double, triple or home run. -/
def is_hit (p : PlayType) : Bool :=
  match p with
  | PLAY_SINGLE => true
  | PLAY_DOUBLE => true
  | PLAY_TRIPLE => true
  | PLAY_HOME_RUN => true
  | _ => false

/-- The occupancy after a walk: the batter takes first; the runner on first moves
to second if first was occupied; the runner on second moves to third if first and
second were both occupied; a runner with a gap behind stays. -/
def walk_bases (b : Bases) : Bases :=
  { b0 := 1
    b1 := if b.b0 ≠ 0 ∧ b.b1 = 0 then 1 else b.b1
    b2 := if b.b0 ≠ 0 ∧ b.b1 ≠ 0 ∧ b.b2 = 0 then 1 else b.b2 }

/-- The runs a walk forces in: 1 with the bases loaded, otherwise 0. -/
def walk_runs (b : Bases) : Int :=
  if b.b0 ≠ 0 ∧ b.b1 ≠ 0 ∧ b.b2 ≠ 0 then 1 else 0

/-- The state after a play that scores `runs`, leaves occupancy `b`, adds `outs`
outs and `hits` hits for the batting team, and changes nothing else. -/
def play_effect (g : GameState) (b : Bases) (runs outs hits : Int) : GameState :=
  if g.is_bottom ≠ 0 then
    { g with
      bases := b
      outs := g.outs + outs
      home_score := g.home_score + runs
      home_hits := g.home_hits + hits
      half_inning_runs := g.half_inning_runs + runs
      half_inning_hits := g.half_inning_hits + hits }
  else
    { g with
      bases := b
      outs := g.outs + outs
      visiting_score := g.visiting_score + runs
      visiting_hits := g.visiting_hits + hits
      half_inning_runs := g.half_inning_runs + runs
      half_inning_hits := g.half_inning_hits + hits }

/-- Outs a play category adds. -/
def play_outs : PlayType → Int
  | PLAY_DOUBLE_PLAY => 2
  | PLAY_TRIPLE_PLAY => 3
  | PLAY_FIELDERS_CHOICE => 1
  | PLAY_SACRIFICE_FLY => 1
  | PLAY_GROUND_OUT => 1
  | PLAY_FLY_OUT => 1
  | PLAY_LINE_OUT => 1
  | PLAY_STRIKEOUT_SWINGING => 1
  | PLAY_STRIKEOUT_CALLED => 1
  | _ => 0

/-- A request `(min, max)` the engine can serve: both are `int` values,
`min ≤ max`, and `max - min + 1` is a positive `int`. -/
def valid_request (r : Int × Int) : Prop :=
  -2147483648 ≤ r.1 ∧ r.2 ≤ 2147483647 ∧ r.1 ≤ r.2 ∧ r.2 - r.1 + 1 ≤ 2147483647

instance (r : Int × Int) : Decidable (valid_request r) := by
  unfold valid_request
  infer_instance

/-- Serve a sequence of `(min, max)` requests with `random_number`, in order:
the values returned and the final engine state. -/
def run_requests : Rng → List (Int × Int) → Option (List Int × Rng)
  | s, [] => some ([], s)
  | s, (min, max) :: rest =>
    match random_number s min max with
    | none => none
    | some (v, s1) =>
      match run_requests s1 rest with
      | none => none
      | some (vs, s2) => some (v :: vs, s2)

/-- The specification's seeding fold: `s ↦ (s * mult + code c) mod 2^32` over the
characters, from the left. -/
def seed_fold (mult : Nat) (init : Nat) (text : List Int) : Nat :=
  text.foldl (fun s c => (s * mult + c.toNat) % 4294967296) init

/-- An ASCII text: every character code is in 1..127. -/
def is_ascii (text : List Int) : Prop := ∀ c ∈ text, 1 ≤ c ∧ c ≤ 127

/-- The character codes of a Lean string. -/
def char_codes (str : String) : List Int := str.toList.map fun c => (c.toNat : Int)

instance (text : List Int) : Decidable (is_ascii text) := by
  unfold is_ascii
  infer_instance

/-- Cumulative score of the team batting in the current half. -/
def batting_score (g : GameState) : Int :=
  if g.is_bottom ≠ 0 then g.home_score else g.visiting_score

/-- Cumulative score of the team in the field. -/
def fielding_score (g : GameState) : Int :=
  if g.is_bottom ≠ 0 then g.visiting_score else g.home_score

/-- Hit count of the team batting in the current half. -/
def batting_hits (g : GameState) : Int :=
  if g.is_bottom ≠ 0 then g.home_hits else g.visiting_hits

/-- Hit count of the team in the field. -/
def fielding_hits (g : GameState) : Int :=
  if g.is_bottom ≠ 0 then g.visiting_hits else g.home_hits

/-- Error count charged in the current half (the counter `execute_play` selects). -/
def batting_errors (g : GameState) : Int :=
  if g.is_bottom ≠ 0 then g.home_errors else g.visiting_errors

/-- Error count of the other team. -/
def fielding_errors (g : GameState) : Int :=
  if g.is_bottom ≠ 0 then g.visiting_errors else g.home_errors

/-- The accounting of one play: `g'` has the outs of `g` plus those of the play,
`r` more runs for the batting team and the half-inning, one more hit exactly for a
hit category, one more error exactly for `PLAY_ERROR`, and the other team's score,
hits and errors as in `g`. -/
def accounts (g g' : GameState) (play : PlayType) (r : Int) : Prop :=
  g'.outs = g.outs + play_outs play ∧
  g'.is_bottom = g.is_bottom ∧
  batting_score g' = batting_score g + r ∧
  g'.half_inning_runs = g.half_inning_runs + r ∧
  fielding_score g' = fielding_score g ∧
  fielding_hits g' = fielding_hits g ∧
  fielding_errors g' = fielding_errors g ∧
  batting_hits g' = batting_hits g + (if is_hit play = true then 1 else 0) ∧
  batting_errors g' = batting_errors g + (if play = PLAY_ERROR then 1 else 0)

/-- The slots of `n` consecutive at-bats when the batter index starts at `c` and
advances by one modulo 9 after each: `c, c+1, ...` reduced modulo 9. -/
def cycle_slots (c : Int) (n : Nat) : List Int :=
  (List.range n).map fun (i : Nat) => (c + (i : Int)) % 9

/-- A lineup of nine distinct batters, each rated .950 or better. -/
def example_sluggers : List Player :=
  [950, 951, 952, 953, 954, 955, 956, 957, 958].map example_player

/-! # Theorems -/

set_option maxRecDepth 100000

/-! ## Frame lemmas -/

theorem same_setting_refl (g : GameState) : g.same_setting g := by
  simp [GameState.same_setting]

theorem same_setting_trans {a b c : GameState} (h1 : a.same_setting b) (h2 : b.same_setting c) :
    a.same_setting c := by
  simp only [GameState.same_setting] at *
  obtain ⟨p1, p2, p3, p4, p5, p6, p7⟩ := h1
  obtain ⟨q1, q2, q3, q4, q5, q6, q7⟩ := h2
  exact ⟨q1.trans p1, q2.trans p2, q3.trans p3, q4.trans p4, q5.trans p5, q6.trans p6,
    q7.trans p7⟩

theorem same_setting_bases (g : GameState) (b : Bases) : g.same_setting { g with bases := b } := by
  simp [GameState.same_setting]

theorem calculate_runs_scored_eq (g : GameState) (n : Int) :
    calculate_runs_scored g n
      = (g.bases.past_third n, { g with bases := g.bases.remove_past_third n }) := by
  obtain ⟨vt, ht, vs, hs, inn, ib, outs, ⟨b0, b1, b2⟩, vh, hh, ve, he, cb, r1, r2, hr, hhit, herr⟩ := g
  by_cases h0 : b0 = 0 <;> by_cases h1 : b1 = 0 <;> by_cases h2 : b2 = 0 <;>
    by_cases n0 : 3 ≤ n <;> by_cases n1 : 3 ≤ 1 + n <;> by_cases n2 : 3 ≤ 2 + n <;>
    simp [calculate_runs_scored, calculate_runs_scored_body, Bases.get, Bases.set,
      Bases.past_third, Bases.remove_past_third, h0, h1, h2, n0, n1, n2]

theorem advance_runners_eq {g g' : GameState} {n : Int} (h : advance_runners g n = some g') :
    g' = { g with bases := g'.bases } := by
  unfold advance_runners at h
  split at h
  · exact absurd h (by simp)
  · simp only [Option.some.injEq] at h
    subst h
    rfl

theorem incr_hits_setting (g : GameState) : g.same_setting (incr_hits g) := by
  unfold incr_hits
  split <;> simp [GameState.same_setting]

theorem incr_errors_setting (g : GameState) : g.same_setting (incr_errors g) := by
  unfold incr_errors
  split <;> simp [GameState.same_setting]

theorem add_runs_setting (g : GameState) (r : Int) : g.same_setting (add_runs g r) := by
  unfold add_runs
  split <;> simp [GameState.same_setting]

theorem walk_case_setting (g : GameState) : g.same_setting (walk_case g).1 := by
  unfold walk_case
  split_ifs <;> simp [GameState.same_setting]

theorem execute_play_switch_setting {g g1 : GameState} {play : PlayType} {runs : Int}
    (h : execute_play_switch g play = some (g1, runs)) : g.same_setting g1 := by
  cases play <;> simp only [execute_play_switch] at h
  case PLAY_SINGLE | PLAY_DOUBLE | PLAY_ERROR =>
    split at h
    · exact absurd h (by simp)
    · rename_i g2 hadv
      simp only [Option.some.injEq, Prod.mk.injEq] at h
      have e := advance_runners_eq hadv
      rw [calculate_runs_scored_eq] at e
      obtain ⟨h1, -⟩ := h
      subst h1
      rw [e]
      first
        | (unfold incr_hits; split <;> simp [GameState.same_setting])
        | (unfold incr_errors; split <;> simp [GameState.same_setting])
  case PLAY_TRIPLE | PLAY_HOME_RUN =>
    simp only [Option.some.injEq, Prod.mk.injEq] at h
    obtain ⟨h1, -⟩ := h
    subst h1
    try rw [calculate_runs_scored_eq]
    unfold incr_hits clear_bases
    split <;> simp [GameState.same_setting]
  case PLAY_WALK =>
    simp only [Option.some.injEq] at h
    have := walk_case_setting g
    rw [h] at this
    exact this
  case PLAY_FIELDERS_CHOICE =>
    split at h
    · exact absurd h (by simp)
    · rename_i g2 hadv
      simp only [Option.some.injEq, Prod.mk.injEq] at h
      have e := advance_runners_eq hadv
      obtain ⟨h1, -⟩ := h
      subst h1
      rw [e]
      simp [GameState.same_setting]
  case PLAY_SACRIFICE_FLY =>
    split at h <;>
    · simp only [Option.some.injEq, Prod.mk.injEq] at h
      obtain ⟨h1, -⟩ := h
      subst h1
      simp [GameState.same_setting]
  all_goals
    simp only [Option.some.injEq, Prod.mk.injEq] at h
    obtain ⟨h1, -⟩ := h
    subst h1
    simp [GameState.same_setting, clear_bases]

theorem execute_play_setting {g g' : GameState} {s s' : Rng} {play : PlayType} {b : Player}
    (h : execute_play g s play b = some (g', s')) : g.same_setting g' := by
  unfold execute_play at h
  split at h
  · exact absurd h (by simp)
  · rename_i g1 runs hsw
    simp only at h
    split at h
    · exact absurd h (by simp)
    · split at h
      · exact absurd h (by simp)
      · simp only [Option.some.injEq, Prod.mk.injEq] at h
        obtain ⟨h1, -⟩ := h
        subst h1
        exact same_setting_trans (execute_play_switch_setting hsw) (add_runs_setting _ _)

theorem resolve_at_bat_setting {g g' : GameState} {s s' : Rng} {b : Player}
    (h : resolve_at_bat g s b = some (g', s')) : g.same_setting g' := by
  unfold resolve_at_bat at h
  split at h
  · exact absurd h (by simp)
  · exact execute_play_setting h

theorem play_at_bat_setting {g g' : GameState} {s s' : Rng} {b : Player}
    (h : play_at_bat g s b = some (g', s')) : g.same_setting g' := by
  unfold play_at_bat at h
  split at h
  · exact absurd h (by simp)
  · split at h
    · exact same_setting_trans (same_setting_bases g _) (resolve_at_bat_setting h)
    · split at h
      · exact absurd h (by simp)
      · split at h
        · exact same_setting_trans (same_setting_bases g _) (resolve_at_bat_setting h)
        · split at h
          · exact absurd h (by simp)
          · split at h
            · simp only at h
              split at h
              · simp only [Option.some.injEq, Prod.mk.injEq] at h
                obtain ⟨h1, -⟩ := h
                subst h1
                simp [GameState.same_setting]
              · refine same_setting_trans ?_ (resolve_at_bat_setting h)
                simp [GameState.same_setting]
            · exact resolve_at_bat_setting h

/-! ## Base-state machine -/

/-- C1: for 0/1 flags and n in 1..3, the runs returned by `calculate_runs_scored g n`
plus the occupied bases after `advance_runners _ n` equal the bases occupied in `g`;
this holds both when the advance runs on the state the count leaves (the calling
sequence of `execute_play`) and when it runs on `g` itself. -/
theorem C1_runner_conservation (g : GameState) (n : Int) (hb : g.bases.flags01)
    (hn : n = 1 ∨ n = 2 ∨ n = 3) :
    ∃ g1 g2, advance_runners (calculate_runs_scored g n).2 n = some g1 ∧
      advance_runners g n = some g2 ∧
      (calculate_runs_scored g n).1 + g1.bases.occupied = g.bases.occupied ∧
      (calculate_runs_scored g n).1 + g2.bases.occupied = g.bases.occupied := by
  obtain ⟨vt, ht, vs, hs, inn, ib, outs, ⟨b0, b1, b2⟩, vh, hh, ve, he, cb, r1, r2, hr, hhit, herr⟩ := g
  simp only [Bases.flags01] at hb
  obtain ⟨h0, h1, h2⟩ := hb
  rcases h0 with rfl | rfl <;> rcases h1 with rfl | rfl <;> rcases h2 with rfl | rfl <;>
    rcases hn with rfl | rfl | rfl <;>
    simp [calculate_runs_scored, calculate_runs_scored_body, advance_runners,
      advance_runners_body, new_bases_set, Bases.get, Bases.set, Bases.occupied]

/-- Witness for C1: runners on first and third, advance by 2. -/
theorem C1_runner_conservation_witness :
    (example_state ⟨1, 0, 1⟩ 0).bases.flags01 ∧
    ∃ g1 g2, advance_runners (calculate_runs_scored (example_state ⟨1, 0, 1⟩ 0) 2).2 2 = some g1 ∧
      advance_runners (example_state ⟨1, 0, 1⟩ 0) 2 = some g2 ∧
      (calculate_runs_scored (example_state ⟨1, 0, 1⟩ 0) 2).1 + g1.bases.occupied
        = (example_state ⟨1, 0, 1⟩ 0).bases.occupied ∧
      (calculate_runs_scored (example_state ⟨1, 0, 1⟩ 0) 2).1 + g2.bases.occupied
        = (example_state ⟨1, 0, 1⟩ 0).bases.occupied :=
  ⟨by decide, C1_runner_conservation (example_state ⟨1, 0, 1⟩ 0) 2 (by decide) (by decide)⟩

/-- C2 (amended): `calculate_runs_scored g n` returns the number of occupied bases
`i` with `i + n ≥ 3`, empties exactly those bases, and changes nothing else. -/
theorem C2_calculate_runs_scored_effect (g : GameState) (n : Int) :
    calculate_runs_scored g n
      = (g.bases.past_third n, { g with bases := g.bases.remove_past_third n }) :=
  calculate_runs_scored_eq g n

/-- C2 as stated fails: with a runner on third, `calculate_runs_scored g 1`
returns 1 and leaves third base empty, so the occupancy is not preserved. -/
theorem C2_counterexample :
    (example_state ⟨0, 0, 1⟩ 0).bases = ⟨0, 0, 1⟩ ∧
    (calculate_runs_scored (example_state ⟨0, 0, 1⟩ 0) 1).1 = 1 ∧
    (calculate_runs_scored (example_state ⟨0, 0, 1⟩ 0) 1).2.bases = ⟨0, 0, 0⟩ ∧
    (calculate_runs_scored (example_state ⟨0, 0, 1⟩ 0) 1).2 ≠ example_state ⟨0, 0, 1⟩ 0 := by
  decide

/-! ## The inning and game loops -/

theorem half_inning_loop_spec (home : Bool) :
    ∀ (fuel : Nat) (g : GameState) (s : Rng) (g' : GameState) (s' : Rng) (tr : List Int),
      half_inning_loop home fuel g s = some (g', s', tr) →
      g'.inning = g.inning ∧
      (¬ g.outs < 3 → tr = [] ∧ g' = g) ∧
      (g.outs < 3 → ∃ x, tr.head? = some g.current_batter ∧ tr.getLast? = some x ∧
        g'.current_batter = Int.tmod (x + 1) 9) := by
  intro fuel
  induction fuel with
  | zero =>
    intro g s g' s' tr h
    unfold half_inning_loop at h
    split at h
    · exact absurd h (by simp)
    · rename_i hout
      simp only [Option.some.injEq, Prod.mk.injEq] at h
      obtain ⟨rfl, -, rfl⟩ := h
      exact ⟨rfl, fun _ => ⟨rfl, rfl⟩, fun hc => absurd hc hout⟩
  | succ n ih =>
    intro g s g' s' tr h
    unfold half_inning_loop at h
    split at h
    · rename_i hout
      split at h
      · exact absurd h (by simp)
      · split at h
        · exact absurd h (by simp)
        · rename_i batter hb g1 s1 hab
          simp only at h
          split at h
          · exact absurd h (by simp)
          · rename_i g3 s3 tr' hrec
            simp only [Option.some.injEq, Prod.mk.injEq] at h
            obtain ⟨rfl, -, rfl⟩ := h
            obtain ⟨e1, e2, e3⟩ := ih _ _ _ _ _ hrec
            obtain ⟨-, -, hin, -, hcb, -, -⟩ := play_at_bat_setting hab
            simp only at e1 e2 e3
            refine ⟨e1.trans hin, fun hc => absurd hout hc, fun _ => ?_⟩
            by_cases hc : g1.outs < 3
            · obtain ⟨x, hx1, hx2, hx3⟩ := e3 hc
              refine ⟨x, rfl, ?_, hx3⟩
              cases tr' with
              | nil => simp at hx2
              | cons a l => simpa [List.getLast?_cons_cons] using hx2
            · obtain ⟨rfl, rfl⟩ := e2 hc
              refine ⟨g.current_batter, rfl, rfl, ?_⟩
              simp [hcb, TEAM_SIZE]
    · rename_i hout
      simp only [Option.some.injEq, Prod.mk.injEq] at h
      obtain ⟨rfl, -, rfl⟩ := h
      exact ⟨rfl, fun _ => ⟨rfl, rfl⟩, fun hc => absurd hc hout⟩

theorem play_inning_spec {hf : Nat} {g g' : GameState} {s s' : Rng} {tv th : List Int}
    (h : play_inning hf g s = some (g', s', tv, th)) :
    g'.inning = g.inning ∧
    ∃ x y, tv.head? = some g.current_batter ∧ tv.getLast? = some x ∧
      th.head? = some (Int.tmod (x + 1) 9) ∧ th.getLast? = some y ∧
      g'.current_batter = Int.tmod (y + 1) 9 := by
  unfold play_inning at h
  split at h
  · exact absurd h (by simp)
  · rename_i g1 s1 tv1 h1
    split at h
    · exact absurd h (by simp)
    · rename_i g2 s2 th2 h2
      simp only [Option.some.injEq, Prod.mk.injEq] at h
      obtain ⟨rfl, -, rfl, rfl⟩ := h
      obtain ⟨a1, -, a3⟩ := half_inning_loop_spec _ _ _ _ _ _ _ h1
      obtain ⟨b1, -, b3⟩ := half_inning_loop_spec _ _ _ _ _ _ _ h2
      obtain ⟨x, x1, x2, x3⟩ := a3 (by simp [start_half])
      obtain ⟨y, y1, y2, y3⟩ := b3 (by simp [start_half])
      refine ⟨?_, x, y, ?_, x2, ?_, y2, y3⟩
      · rw [b1]
        simpa [start_half] using a1
      · simpa [start_half] using x1
      · rw [y1]
        simp [start_half, x3]

theorem play_game_spec (hf : Nat) :
    ∀ (fuel : Nat) (g : GameState) (s : Rng) (g' : GameState) (s' : Rng) (tr : List (List Int)),
      play_game hf fuel g s = some (g', s', tr) →
      (g'.inning > 9 ∧ g'.home_score ≠ g'.visiting_score) ∧
      halves_follow g.current_batter tr g'.current_batter ∧
      ∃ k : Nat, innings_played hf k g s = some (g', s') ∧ g'.inning = g.inning + k ∧
        tr.length = 2 * k ∧
        ∀ j : Nat, j < k → ∃ gj sj, innings_played hf j g s = some (gj, sj) ∧
          gj.inning = g.inning + j ∧ (gj.inning ≤ 9 ∨ gj.visiting_score = gj.home_score) := by
  intro fuel
  induction fuel with
  | zero =>
    intro g s g' s' tr h
    unfold play_game at h
    split at h
    · exact absurd h (by simp)
    · rename_i hc
      simp only [Option.some.injEq, Prod.mk.injEq] at h
      obtain ⟨rfl, rfl, rfl⟩ := h
      simp only [MAX_INNINGS, not_or, not_le] at hc
      refine ⟨⟨hc.1, fun e => hc.2 e.symm⟩, rfl, 0, rfl, by simp, rfl, fun j hj => absurd hj (by omega)⟩
  | succ n ih =>
    intro g s g' s' tr h
    unfold play_game at h
    split at h
    · rename_i hc
      split at h
      · exact absurd h (by simp)
      · rename_i g1 s1 tv th hinn
        obtain ⟨i1, x, y, x1, x2, y1, y2, y3⟩ := play_inning_spec hinn
        have hzero : ∃ gj sj, innings_played hf 0 g s = some (gj, sj) ∧
            gj.inning = g.inning + ((0 : Nat) : Int) ∧
            (gj.inning ≤ 9 ∨ gj.visiting_score = gj.home_score) :=
          ⟨g, s, rfl, by simp, by simpa [MAX_INNINGS] using hc⟩
        simp only at h
        split at h
        · rename_i hex
          simp only [Option.some.injEq, Prod.mk.injEq] at h
          obtain ⟨rfl, rfl, rfl⟩ := h
          refine ⟨by simpa [MAX_INNINGS] using hex, ?_, 1, ?_, ?_, rfl, ?_⟩
          · exact ⟨x, x1, x2, y, y1, y2, y3⟩
          · simp [innings_played, hinn]
          · simp [i1]
          · intro j hj
            have : j = 0 := by omega
            subst this
            exact hzero
        · split at h
          · exact absurd h (by simp)
          · rename_i g3 s3 tr3 hrec
            simp only [Option.some.injEq, Prod.mk.injEq] at h
            obtain ⟨rfl, rfl, rfl⟩ := h
            obtain ⟨e1, e2, k, e3, e4, e5, e6⟩ := ih _ _ _ _ _ hrec
            simp only at e2 e4 e6
            refine ⟨e1, ?_, k + 1, ?_, ?_, ?_, ?_⟩
            · exact ⟨x, x1, x2, y, y1, y2, by rw [← y3]; exact e2⟩
            · simp [innings_played, hinn, e3]
            · rw [e4, i1]
              push_cast
              ring
            · simp [e5]
              ring
            · intro j hj
              cases j with
              | zero => exact hzero
              | succ j =>
                obtain ⟨gj, sj, f1, f2, f3⟩ := e6 j (by omega)
                refine ⟨gj, sj, ?_, ?_, f3⟩
                · simp [innings_played, hinn, f1]
                · rw [f2, i1]
                  push_cast
                  ring
    · rename_i hc
      simp only [Option.some.injEq, Prod.mk.injEq] at h
      obtain ⟨rfl, rfl, rfl⟩ := h
      simp only [MAX_INNINGS, not_or, not_le] at hc
      refine ⟨⟨hc.1, fun e => hc.2 e.symm⟩, rfl, 0, rfl, by simp, rfl, fun j hj => absurd hj (by omega)⟩

theorem halves_follow_adjacent :
    ∀ (tr : List (List Int)) (c c' : Int), halves_follow c tr c' →
      ∀ (i : Nat) (a b : List Int), tr.get? i = some a → tr.get? (i + 1) = some b →
        ∃ x, a.getLast? = some x ∧ b.head? = some (Int.tmod (x + 1) 9) := by
  intro tr
  induction tr with
  | nil => intro c c' _ i a b ha; simp at ha
  | cons h hs ih =>
    intro c c' hf i a b ha hb
    obtain ⟨x, -, hx2, hrest⟩ := hf
    cases i with
    | zero =>
      simp only [List.get?_cons_zero, Option.some.injEq] at ha
      subst ha
      cases hs with
      | nil => simp at hb
      | cons h2 hs2 =>
        simp only [List.get?_cons_succ, List.get?_cons_zero, Option.some.injEq] at hb
        subst hb
        obtain ⟨y, hy1, -, -⟩ := hrest
        exact ⟨x, hx2, hy1⟩
    | succ i =>
      simp only [List.get?_cons_succ] at ha hb
      exact ih _ _ hrest i a b ha hb

/-- C3: from the state left by `init_game` and the lineup selections, whenever
`play_game` returns, `inning > 9` and the scores differ; the state returned is the
one after exactly `k` innings for some `k ≥ 9` (`inning = k + 1`), and after every
earlier inning `j` with `9 ≤ j < k` the score was tied. -/
theorem C3_game_end (hf fuel : Nat) (s0 s : Rng) (v h : List Player)
    (g' : GameState) (s' : Rng) (tr : List (List Int))
    (hrun : play_game hf fuel (with_lineups (init_game s0) v h) s = some (g', s', tr)) :
    g'.inning > 9 ∧ g'.home_score ≠ g'.visiting_score ∧
    ∃ k : Nat, 9 ≤ k ∧ g'.inning = k + 1 ∧
      innings_played hf k (with_lineups (init_game s0) v h) s = some (g', s') ∧
      ∀ j : Nat, 9 ≤ j → j < k →
        ∃ gj sj, innings_played hf j (with_lineups (init_game s0) v h) s = some (gj, sj) ∧
          gj.inning = j + 1 ∧ gj.home_score = gj.visiting_score := by
  obtain ⟨⟨h1, h2⟩, -, k, h3, h4, -, h5⟩ := play_game_spec hf fuel _ _ _ _ _ hrun
  have hinn : (with_lineups (init_game s0) v h).inning = 1 := rfl
  rw [hinn] at h4 h5
  refine ⟨h1, h2, k, by omega, by omega, h3, fun j hj9 hjk => ?_⟩
  obtain ⟨gj, sj, f1, f2, f3⟩ := h5 j hjk
  refine ⟨gj, sj, f1, by omega, ?_⟩
  rcases f3 with f3 | f3
  · omega
  · exact f3.symm

theorem example_game_ten :
    play_game 30 12 (example_start ⟨60, 61⟩) ⟨60, 61⟩
      = some (example_final 8 7 19 20 1 1 11 2 ⟨0, 0, 0⟩ 0 0 0 (60, 61),
          ⟨1707726874, 1461938835⟩, example_trace_ten) := by
  decide

/-- Witness for C3: a game that is tied after nine innings and ends 8-7 after ten. -/
theorem C3_game_end_witness :
    play_game 30 12 (with_lineups (init_game ⟨60, 61⟩) example_visitors example_home) ⟨60, 61⟩
      = some (example_final 8 7 19 20 1 1 11 2 ⟨0, 0, 0⟩ 0 0 0 (60, 61),
          ⟨1707726874, 1461938835⟩, example_trace_ten) ∧
    (example_final 8 7 19 20 1 1 11 2 ⟨0, 0, 0⟩ 0 0 0 (60, 61)).inning > 9 ∧
    (example_final 8 7 19 20 1 1 11 2 ⟨0, 0, 0⟩ 0 0 0 (60, 61)).home_score
      ≠ (example_final 8 7 19 20 1 1 11 2 ⟨0, 0, 0⟩ 0 0 0 (60, 61)).visiting_score ∧
    ∃ k : Nat, 9 ≤ k ∧
      (example_final 8 7 19 20 1 1 11 2 ⟨0, 0, 0⟩ 0 0 0 (60, 61)).inning = k + 1 ∧
      innings_played 30 k (with_lineups (init_game ⟨60, 61⟩) example_visitors example_home)
        ⟨60, 61⟩
        = some (example_final 8 7 19 20 1 1 11 2 ⟨0, 0, 0⟩ 0 0 0 (60, 61),
            ⟨1707726874, 1461938835⟩) ∧
      ∀ j : Nat, 9 ≤ j → j < k →
        ∃ gj sj, innings_played 30 j
            (with_lineups (init_game ⟨60, 61⟩) example_visitors example_home) ⟨60, 61⟩
            = some (gj, sj) ∧
          gj.inning = j + 1 ∧ gj.home_score = gj.visiting_score :=
  ⟨example_game_ten,
    C3_game_end 30 12 ⟨60, 61⟩ ⟨60, 61⟩ example_visitors example_home _ _ _ example_game_ten⟩

/-- C4 (amended): `current_batter` is one index shared by both lineups. In the
half-innings `play_game` plays from the initial state (visitors and home team
alternating, at least eighteen of them), every half has a batter, the first half
opens with slot 0, and every later half opens with the slot after the last batter
of the half just before it, which is the other team's. -/
theorem C4_batter_index_shared (hf fuel : Nat) (s0 s : Rng) (v h : List Player)
    (g' : GameState) (s' : Rng) (tr : List (List Int))
    (hrun : play_game hf fuel (with_lineups (init_game s0) v h) s = some (g', s', tr)) :
    18 ≤ tr.length ∧
    (∃ a, tr.get? 0 = some a ∧ a.head? = some 0) ∧
    (∀ (i : Nat) (a b : List Int), tr.get? i = some a → tr.get? (i + 1) = some b →
      ∃ x, a.getLast? = some x ∧ b.head? = some (Int.tmod (x + 1) 9)) ∧
    halves_follow 0 tr g'.current_batter := by
  obtain ⟨⟨h1, -⟩, hfol, k, -, h4, h5, -⟩ := play_game_spec hf fuel _ _ _ _ _ hrun
  have hinn : (with_lineups (init_game s0) v h).inning = 1 := rfl
  have hcb : (with_lineups (init_game s0) v h).current_batter = 0 := rfl
  rw [hinn] at h4
  rw [hcb] at hfol
  have hlen : 18 ≤ tr.length := by omega
  refine ⟨hlen, ?_, halves_follow_adjacent tr _ _ hfol, hfol⟩
  cases tr with
  | nil => simp at hlen
  | cons a rest =>
    obtain ⟨x, hx, -, -⟩ := hfol
    exact ⟨a, rfl, hx⟩

theorem example_game_seven :
    play_game 30 9 (example_start ⟨7, 7⟩) ⟨7, 7⟩
      = some (example_final 1 3 8 9 0 4 10 8 ⟨1, 1, 1⟩ 3 2 2 (7, 7),
          ⟨2128532443, 33271355⟩, example_trace_seven) := by
  decide

theorem example_game_zero :
    play_game 30 9 (example_start ⟨0, 0⟩) ⟨0, 0⟩
      = some (example_final 4 10 14 17 1 0 10 8 ⟨0, 0, 0⟩ 0 0 0 (0, 0),
          ⟨1252548203, 1900765859⟩, example_trace_zero) := by
  decide

/-- Witness for C4 (amended): a nine-inning game; the home team's first half
opens with slot 3, after the visitors' slots 0, 1, 2. -/
theorem C4_batter_index_shared_witness :
    play_game 30 9 (with_lineups (init_game ⟨7, 7⟩) example_visitors example_home) ⟨7, 7⟩
      = some (example_final 1 3 8 9 0 4 10 8 ⟨1, 1, 1⟩ 3 2 2 (7, 7),
          ⟨2128532443, 33271355⟩, example_trace_seven) ∧
    example_trace_seven.take 2 = [[0, 1, 2], [3, 4, 5, 6, 7]] ∧
    18 ≤ example_trace_seven.length ∧
    (∃ a, example_trace_seven.get? 0 = some a ∧ a.head? = some 0) ∧
    (∀ (i : Nat) (a b : List Int), example_trace_seven.get? i = some a →
      example_trace_seven.get? (i + 1) = some b →
      ∃ x, a.getLast? = some x ∧ b.head? = some (Int.tmod (x + 1) 9)) ∧
    halves_follow 0 example_trace_seven
      (example_final 1 3 8 9 0 4 10 8 ⟨1, 1, 1⟩ 3 2 2 (7, 7)).current_batter :=
  ⟨example_game_seven, rfl,
    C4_batter_index_shared 30 9 ⟨7, 7⟩ ⟨7, 7⟩ example_visitors example_home _ _ _
      example_game_seven⟩

/-- C4 as stated fails. In this game the visitors send slots 0 to 3 to bat in the
top of the first; the home team then opens its first half with slot 4, not slot 0,
and the visitors open their second half with slot 0, not with slot 4 that follows
their own last batter. -/
theorem C4_counterexample :
    play_game 30 9 (with_lineups (init_game ⟨0, 0⟩) example_visitors example_home) ⟨0, 0⟩
      = some (example_final 4 10 14 17 1 0 10 8 ⟨0, 0, 0⟩ 0 0 0 (0, 0),
          ⟨1252548203, 1900765859⟩, example_trace_zero) ∧
    example_trace_zero.get? 0 = some [0, 1, 2, 3] ∧
    example_trace_zero.get? 1 = some [4, 5, 6, 7, 8] ∧
    example_trace_zero.get? 2 = some [0, 1, 2, 3, 4, 5] ∧
    (example_trace_zero.get? 1).bind List.head? ≠ some 0 ∧
    (example_trace_zero.get? 2).bind List.head? ≠ some (Int.tmod (3 + 1) 9) :=
  ⟨example_game_zero, rfl, rfl, rfl, by decide, by decide⟩

/-! ## Engine and classifier -/

theorem random_number_eq (s : Rng) (min max : Int) (h : toU32 (max - min + 1) ≠ 0) :
    random_number s min max = some (random_value s min max, random_step s) := by
  simp [random_number, random_value, h]

theorem draw_eq (s : Rng) (min max : Int) (h : toU32 (max - min + 1) ≠ 0) :
    draw s min max = some (random_step s) := by
  simp [draw, random_number_eq s min max h]

theorem determine_play_result_eq (batter : Player) (g : GameState) (s : Rng) :
    determine_play_result batter g s
      = some (play_of_rolls batter g (random_value s 1 1000)
          (random_value (random_step s) 1 100), random_step (random_step s)) := by
  unfold determine_play_result play_of_rolls
  rw [random_number_eq s 1 1000 (by decide)]
  simp only
  rw [random_number_eq (random_step s) 1 100 (by decide)]
  split <;> rfl

theorem first_bucket_in_cases (P : PlayType → Prop) (r : Int) :
    ∀ l : List (Int × Bool × PlayType), P PLAY_LINE_OUT →
      (∀ b ∈ l, b.2.1 = true → P b.2.2) → P (first_bucket_in r l) := by
  intro l
  induction l with
  | nil => intro h _; exact h
  | cons b rest ih =>
    intro h hl
    obtain ⟨bound, pre, play⟩ := b
    unfold first_bucket_in
    split
    · rename_i hc
      exact hl _ (List.mem_cons_self _ _) hc.2
    · exact ih h (fun b hb => hl b (List.mem_cons_of_mem _ hb))

theorem out_type_result_first_bucket (g : GameState) (r : Int) :
    out_type_result g r = first_bucket g r := by
  simp only [out_type_result, first_bucket, out_buckets, first_bucket_in, decide_eq_true_eq,
    and_true]

theorem out_type_result_precondition (g : GameState) (r : Int) :
    situational_precondition g (out_type_result g r) := by
  rw [out_type_result_first_bucket]
  apply first_bucket_in_cases
  · trivial
  · intro b hb hp
    simp only [out_buckets, List.mem_cons, List.mem_singleton, List.not_mem_nil, or_false] at hb
    rcases hb with e | e | e | e | e | e | e | e | e | e <;> subst e <;>
      first
        | trivial
        | simpa [situational_precondition] using hp

theorem hit_type_result_precondition (g : GameState) (r : Int) :
    situational_precondition g (hit_type_result r) := by
  unfold hit_type_result
  split_ifs <;> simp only [situational_precondition]

theorem hit_type_result_is_hit (h : Int) : is_hit (hit_type_result h) = true := by
  unfold hit_type_result
  split_ifs <;> rfl

theorem out_type_result_not_hit (g : GameState) (r : Int) :
    is_hit (out_type_result g r) = false := by
  rw [out_type_result_first_bucket]
  apply first_bucket_in_cases (fun p => is_hit p = false)
  · rfl
  · intro b hb _
    simp only [out_buckets, List.mem_cons, List.mem_singleton, List.not_mem_nil, or_false] at hb
    rcases hb with e | e | e | e | e | e | e | e | e | e <;> subst e <;> rfl

theorem hit_type_result_bucket (h : Int) : hit_type_result h = hit_bucket h := by
  unfold hit_type_result hit_bucket
  split_ifs <;> first | rfl | omega

theorem situational_empty_bases (g : GameState) (p : PlayType)
    (h0 : g.bases.b0 = 0) (h1 : g.bases.b1 = 0) (h2 : g.bases.b2 = 0)
    (hp : situational_precondition g p) :
    p ∉ [PLAY_DOUBLE_PLAY, PLAY_SACRIFICE_FLY, PLAY_FIELDERS_CHOICE, PLAY_TRIPLE_PLAY] := by
  intro hmem
  simp only [List.mem_cons, List.mem_singleton, List.not_mem_nil, or_false] at hmem
  rcases hmem with e | e | e | e <;> subst e <;>
    simp [situational_precondition, h0, h1, h2] at hp

theorem out_type_result_empty_bases (g : GameState) (r : Int)
    (h0 : g.bases.b0 = 0) (h1 : g.bases.b1 = 0) (h2 : g.bases.b2 = 0) :
    out_type_result g r =
      (if r ≤ 15 then PLAY_STRIKEOUT_SWINGING
       else if r ≤ 20 then PLAY_STRIKEOUT_CALLED
       else if r ≤ 25 then PLAY_WALK
       else if r ≤ 30 then PLAY_ERROR
       else if r ≤ 65 then PLAY_GROUND_OUT
       else if r ≤ 85 then PLAY_FLY_OUT
       else PLAY_LINE_OUT) := by
  unfold out_type_result
  simp only [h0, h1, h2, ne_eq, not_true_eq_false, false_and, and_false, or_self, if_false]

/-- C5: the classifier never returns a situational play whose precondition is
false, on every pair of rolls and on the rolls `determine_play_result` draws
(which always returns); with no outs and empty bases it returns none of double
play, sacrifice fly, fielder's choice, triple play; every result is one of the
fifteen categories. -/
theorem C5_situational_plays_guarded (batter : Player) (g : GameState) :
    (∀ roll second : Int, situational_precondition g (play_of_rolls batter g roll second)) ∧
    (∀ s : Rng, ∃ p s', determine_play_result batter g s = some (p, s') ∧
      situational_precondition g p ∧ p ∈ all_plays) ∧
    (∀ roll second : Int,
      play_of_rolls batter { g with outs := 0, bases := ⟨0, 0, 0⟩ } roll second ∉
        [PLAY_DOUBLE_PLAY, PLAY_SACRIFICE_FLY, PLAY_FIELDERS_CHOICE, PLAY_TRIPLE_PLAY]) ∧
    (∀ roll second : Int, play_of_rolls batter g roll second ∈ all_plays) := by
  have hpre : ∀ (g : GameState) (roll second : Int),
      situational_precondition g (play_of_rolls batter g roll second) := by
    intro g roll second
    unfold play_of_rolls
    simp only
    split
    · exact hit_type_result_precondition g second
    · exact out_type_result_precondition g second
  have hall : ∀ p : PlayType, p ∈ all_plays := by
    intro p
    cases p <;> simp [all_plays]
  refine ⟨hpre g, fun s => ⟨_, _, determine_play_result_eq batter g s, hpre g _ _, hall _⟩,
    fun roll second => ?_, fun _ _ => hall _⟩
  exact situational_empty_bases _ _ rfl rfl rfl (hpre _ roll second)

/-- C6: when the first roll exceeds rating + 50, the category for second roll `r`
is the first bucket of the ordered list whose range contains `r` and whose
precondition holds (line out when none does); with empty bases the gated ranges
fall through, so `r ≤ 15` gives strikeout swinging and `31 ≤ r ≤ 65` ground out;
the same holds for the rolls `determine_play_result` draws. -/
theorem C6_out_branch_fallthrough (batter : Player) (g : GameState) (roll r : Int)
    (hroll : batter.batting_avg + 50 < roll) :
    play_of_rolls batter g roll r = first_bucket g r ∧
    play_of_rolls batter { g with bases := ⟨0, 0, 0⟩ } roll r =
      (if r ≤ 15 then PLAY_STRIKEOUT_SWINGING
       else if r ≤ 20 then PLAY_STRIKEOUT_CALLED
       else if r ≤ 25 then PLAY_WALK
       else if r ≤ 30 then PLAY_ERROR
       else if r ≤ 65 then PLAY_GROUND_OUT
       else if r ≤ 85 then PLAY_FLY_OUT
       else PLAY_LINE_OUT) ∧
    (∀ s : Rng, random_value s 1 1000 = roll →
      determine_play_result batter g s
        = some (first_bucket g (random_value (random_step s) 1 100),
            random_step (random_step s))) := by
  have hout : ∀ (g : GameState) (r : Int), play_of_rolls batter g roll r = out_type_result g r := by
    intro g r
    unfold play_of_rolls
    simp only
    rw [if_neg (by omega)]
  refine ⟨?_, ?_, ?_⟩
  · rw [hout, out_type_result_first_bucket]
  · rw [hout]
    exact out_type_result_empty_bases _ r rfl rfl rfl
  · intro s hs
    rw [determine_play_result_eq, hs, hout, out_type_result_first_bucket]

/-- Witness for C6: a .300 batter, first roll 400, runner on first, no outs,
second roll 2: double play. -/
theorem C6_out_branch_fallthrough_witness :
    (example_player 300).batting_avg + 50 < 400 ∧
    play_of_rolls (example_player 300) (example_state ⟨1, 0, 0⟩ 0) 400 2 = PLAY_DOUBLE_PLAY ∧
    play_of_rolls (example_player 300) (example_state ⟨0, 0, 0⟩ 0) 400 2
      = PLAY_STRIKEOUT_SWINGING ∧
    play_of_rolls (example_player 300) (example_state ⟨1, 0, 0⟩ 0) 400 2
      = first_bucket (example_state ⟨1, 0, 0⟩ 0) 2 :=
  ⟨by decide, by decide, by decide,
    (C6_out_branch_fallthrough (example_player 300) (example_state ⟨1, 0, 0⟩ 0) 400 2
      (by decide)).1⟩

/-- C7: the classifier returns a hit category exactly when the first roll is at
most rating + 50; then the second roll `h` gives home run for `h ≤ 5`, triple for
`5 < h ≤ 12`, double for `12 < h ≤ 30`, single above 30, whatever the outs and
bases; the same holds for the rolls `determine_play_result` draws. -/
theorem C7_hit_branch (batter : Player) (g : GameState) (roll h : Int) :
    (is_hit (play_of_rolls batter g roll h) = true ↔ roll ≤ batter.batting_avg + 50) ∧
    (roll ≤ batter.batting_avg + 50 →
      play_of_rolls batter g roll h = hit_bucket h ∧
      ∀ g2 : GameState, play_of_rolls batter g2 roll h = play_of_rolls batter g roll h) ∧
    (∀ s : Rng, ∃ p s', determine_play_result batter g s = some (p, s') ∧
      (is_hit p = true ↔ random_value s 1 1000 ≤ batter.batting_avg + 50) ∧
      (random_value s 1 1000 ≤ batter.batting_avg + 50 →
        p = hit_bucket (random_value (random_step s) 1 100))) := by
  have hiff : ∀ (g : GameState) (roll h : Int),
      (is_hit (play_of_rolls batter g roll h) = true ↔ roll ≤ batter.batting_avg + 50) := by
    intro g roll h
    unfold play_of_rolls
    simp only
    split
    · rename_i hc
      simp [hit_type_result_is_hit, hc]
    · rename_i hc
      simp [out_type_result_not_hit, hc]
  have hhit : ∀ (g : GameState) (roll h : Int), roll ≤ batter.batting_avg + 50 →
      play_of_rolls batter g roll h = hit_bucket h := by
    intro g roll h hc
    unfold play_of_rolls
    simp only
    rw [if_pos hc, hit_type_result_bucket]
  refine ⟨hiff g roll h, fun hc => ⟨hhit g roll h hc, fun g2 => ?_⟩, fun s => ?_⟩
  · rw [hhit g roll h hc, hhit g2 roll h hc]
  · exact ⟨_, _, determine_play_result_eq batter g s, hiff g _ _, fun hc => hhit g _ _ hc⟩

/-! ## Play executor -/

theorem print_play_result_some (s : Rng) (play : PlayType) :
    ∃ s', print_play_result s play = some s' := by
  cases play <;> exact ⟨_, rfl⟩

theorem execute_play_of_switch {g g1 : GameState} {play : PlayType} {runs : Int}
    (h : execute_play_switch g play = some (g1, runs)) (s : Rng) (batter : Player) :
    ∃ s', execute_play g s play batter = some (add_runs g1 runs, s') := by
  obtain ⟨s1, hs1⟩ := print_play_result_some s play
  unfold execute_play
  rw [h]
  simp only
  rw [hs1]
  simp only
  rw [draw_eq _ _ _ (by decide)]
  exact ⟨_, rfl⟩

theorem home_run_runs_eq (g : GameState) : home_run_runs g = 1 + g.bases.occupied := by
  simp only [home_run_runs, List.foldl, Bases.get, Bases.occupied]
  by_cases h0 : g.bases.b0 = 0 <;> by_cases h1 : g.bases.b1 = 0 <;>
    by_cases h2 : g.bases.b2 = 0 <;> simp [h0, h1, h2]

theorem walk_case_eq (g : GameState) :
    walk_case g = ({ g with bases := walk_bases g.bases }, walk_runs g.bases) := by
  obtain ⟨vt, ht, vs, hs, inn, ib, outs, ⟨b0, b1, b2⟩, vh, hh, ve, he, cb, r1, r2, hr, hhit, herr⟩ := g
  by_cases h0 : b0 = 0 <;> by_cases h1 : b1 = 0 <;> by_cases h2 : b2 = 0 <;>
    simp [walk_case, walk_bases, walk_runs, Bases.set, h0, h1, h2]

/-- C8: `PLAY_HOME_RUN` adds 1 plus the number of occupied bases to the batting
team's score and to the half-inning runs, empties the bases, adds one hit and
changes nothing else (outs included); with the bases loaded that is 4 runs. -/
theorem C8_home_run (g : GameState) (s : Rng) (batter : Player) :
    (∃ s', execute_play g s PLAY_HOME_RUN batter
      = some (play_effect g ⟨0, 0, 0⟩ (1 + g.bases.occupied) 0 1, s')) ∧
    (∃ s', execute_play { g with bases := ⟨1, 1, 1⟩ } s PLAY_HOME_RUN batter
      = some (play_effect g ⟨0, 0, 0⟩ 4 0 1, s')) := by
  have key : ∀ g : GameState, ∃ s', execute_play g s PLAY_HOME_RUN batter
      = some (play_effect g ⟨0, 0, 0⟩ (1 + g.bases.occupied) 0 1, s') := by
    intro g
    obtain ⟨s', hs'⟩ := execute_play_of_switch
      (show execute_play_switch g PLAY_HOME_RUN = some _ from rfl) s batter
    refine ⟨s', ?_⟩
    rw [hs', home_run_runs_eq]
    unfold add_runs incr_hits clear_bases play_effect
    by_cases hb : g.is_bottom = 0 <;> simp [hb]
  refine ⟨key g, ?_⟩
  obtain ⟨s', hs'⟩ := key { g with bases := ⟨1, 1, 1⟩ }
  refine ⟨s', ?_⟩
  rw [hs']
  unfold play_effect
  by_cases hb : g.is_bottom = 0 <;> simp [hb, Bases.occupied]

/-- C9: `PLAY_WALK` scores 1 run with the bases loaded and 0 otherwise, puts the
batter on first, moves only runners packed from first (`walk_bases`), changes no
outs or hit counter; the runners afterwards number those before plus 1 minus the
runs scored; with the bases loaded: 1 run, bases still `[1,1,1]`. -/
theorem C9_walk (g : GameState) (s : Rng) (batter : Player) :
    (∃ s', execute_play g s PLAY_WALK batter
      = some (play_effect g (walk_bases g.bases) (walk_runs g.bases) 0 0, s')) ∧
    (walk_bases g.bases).occupied = g.bases.occupied + 1 - walk_runs g.bases ∧
    (walk_bases g.bases).b0 = 1 ∧
    walk_bases ⟨1, 1, 1⟩ = ⟨1, 1, 1⟩ ∧ walk_runs ⟨1, 1, 1⟩ = 1 := by
  refine ⟨?_, ?_, rfl, by decide, by decide⟩
  · obtain ⟨s', hs'⟩ := execute_play_of_switch
      (show execute_play_switch g PLAY_WALK = some ((walk_case g).1, (walk_case g).2) from rfl)
      s batter
    refine ⟨s', ?_⟩
    rw [hs', walk_case_eq]
    unfold add_runs play_effect
    by_cases hb : g.is_bottom = 0 <;> simp [hb]
  · unfold walk_bases walk_runs Bases.occupied
    by_cases h0 : g.bases.b0 = 0 <;> by_cases h1 : g.bases.b1 = 0 <;>
      by_cases h2 : g.bases.b2 = 0 <;> simp [h0, h1, h2]

/-- C10: `PLAY_DOUBLE_PLAY` adds exactly 2 outs and `PLAY_TRIPLE_PLAY` exactly 3;
both empty the bases and change nothing else (no run, hit or error); a double
play with a runner on first and 1 out leaves 3 outs. -/
theorem C10_double_and_triple_play (g : GameState) (s : Rng) (batter : Player) :
    (∃ s', execute_play g s PLAY_DOUBLE_PLAY batter
      = some ({ g with outs := g.outs + 2, bases := ⟨0, 0, 0⟩ }, s')) ∧
    (∃ s', execute_play g s PLAY_TRIPLE_PLAY batter
      = some ({ g with outs := g.outs + 3, bases := ⟨0, 0, 0⟩ }, s')) ∧
    (∃ s', execute_play { g with outs := 1, bases := ⟨1, g.bases.b1, g.bases.b2⟩ } s
        PLAY_DOUBLE_PLAY batter
      = some ({ g with outs := 3, bases := ⟨0, 0, 0⟩ }, s')) := by
  have key2 : ∀ g : GameState, ∃ s', execute_play g s PLAY_DOUBLE_PLAY batter
      = some ({ g with outs := g.outs + 2, bases := ⟨0, 0, 0⟩ }, s') := by
    intro g
    obtain ⟨s', hs'⟩ := execute_play_of_switch
      (show execute_play_switch g PLAY_DOUBLE_PLAY = some _ from rfl) s batter
    refine ⟨s', ?_⟩
    rw [hs']
    unfold add_runs clear_bases
    by_cases hb : g.is_bottom = 0 <;> simp [hb]
  refine ⟨key2 g, ?_, ?_⟩
  · obtain ⟨s', hs'⟩ := execute_play_of_switch
      (show execute_play_switch g PLAY_TRIPLE_PLAY = some _ from rfl) s batter
    refine ⟨s', ?_⟩
    rw [hs']
    unfold add_runs clear_bases
    by_cases hb : g.is_bottom = 0 <;> simp [hb]
  · obtain ⟨s', hs'⟩ := key2 { g with outs := 1, bases := ⟨1, g.bases.b1, g.bases.b2⟩ }
    refine ⟨s', ?_⟩
    rw [hs']
    norm_num

/-! ## Base hits, fielder's choice, sacrifice fly -/

theorem advance_runners_one (g : GameState) :
    advance_runners g 1 = some { g with bases :=
      ⟨0, if g.bases.b0 ≠ 0 then 1 else 0, if g.bases.b1 ≠ 0 then 1 else 0⟩ } := by
  obtain ⟨vt, ht, vs, hs, inn, ib, outs, ⟨b0, b1, b2⟩, vh, hh, ve, he, cb, r1, r2, hr, hhit, herr⟩ := g
  by_cases h0 : b0 = 0 <;> by_cases h1 : b1 = 0 <;> by_cases h2 : b2 = 0 <;>
    simp [advance_runners, advance_runners_body, new_bases_set, Bases.get, h0, h1, h2]

theorem advance_runners_two (g : GameState) :
    advance_runners g 2 = some { g with bases :=
      ⟨0, 0, if g.bases.b0 ≠ 0 then 1 else 0⟩ } := by
  obtain ⟨vt, ht, vs, hs, inn, ib, outs, ⟨b0, b1, b2⟩, vh, hh, ve, he, cb, r1, r2, hr, hhit, herr⟩ := g
  by_cases h0 : b0 = 0 <;> by_cases h1 : b1 = 0 <;> by_cases h2 : b2 = 0 <;>
    simp [advance_runners, advance_runners_body, new_bases_set, Bases.get, h0, h1, h2]

theorem flag_eq_ite {b : Int} (h : b = 0 ∨ b = 1) : (if b ≠ 0 then (1 : Int) else 0) = b := by
  rcases h with rfl | rfl <;> simp

theorem past_third_one (b : Bases) (h : b.flags01) : b.past_third 1 = b.b2 := by
  obtain ⟨b0, b1, b2⟩ := b
  obtain ⟨-, -, h2⟩ := h
  simp only at h2
  rcases h2 with rfl | rfl <;> simp [Bases.past_third]

theorem past_third_two (b : Bases) (h : b.flags01) : b.past_third 2 = b.b1 + b.b2 := by
  obtain ⟨b0, b1, b2⟩ := b
  obtain ⟨-, h1, h2⟩ := h
  simp only at h1 h2
  rcases h1 with rfl | rfl <;> rcases h2 with rfl | rfl <;> simp [Bases.past_third]

theorem past_third_three (b : Bases) (h : b.flags01) : b.past_third 3 = b.b0 + b.b1 + b.b2 := by
  obtain ⟨b0, b1, b2⟩ := b
  obtain ⟨h0, h1, h2⟩ := h
  simp only at h0 h1 h2
  rcases h0 with rfl | rfl <;> rcases h1 with rfl | rfl <;> rcases h2 with rfl | rfl <;>
    simp [Bases.past_third]

theorem switch_single (g : GameState) :
    execute_play_switch g PLAY_SINGLE
      = some (play_effect g ⟨1, if g.bases.b0 ≠ 0 then 1 else 0, if g.bases.b1 ≠ 0 then 1 else 0⟩
          0 0 1, g.bases.past_third 1) := by
  simp only [execute_play_switch, calculate_runs_scored_eq, advance_runners_one]
  obtain ⟨vt, ht, vs, hs, inn, ib, outs, ⟨b0, b1, b2⟩, vh, hh, ve, he, cb, r1, r2, hr, hhit, herr⟩ := g
  by_cases hb : ib = 0 <;> by_cases h0 : b0 = 0 <;> by_cases h1 : b1 = 0 <;>
    simp [play_effect, incr_hits, Bases.set, Bases.remove_past_third, hb, h0, h1]

theorem switch_double (g : GameState) :
    execute_play_switch g PLAY_DOUBLE
      = some (play_effect g ⟨0, 1, if g.bases.b0 ≠ 0 then 1 else 0⟩ 0 0 1,
          g.bases.past_third 2) := by
  simp only [execute_play_switch, calculate_runs_scored_eq, advance_runners_two]
  obtain ⟨vt, ht, vs, hs, inn, ib, outs, ⟨b0, b1, b2⟩, vh, hh, ve, he, cb, r1, r2, hr, hhit, herr⟩ := g
  by_cases hb : ib = 0 <;> by_cases h0 : b0 = 0 <;>
    simp [play_effect, incr_hits, Bases.set, Bases.remove_past_third, hb, h0]

theorem switch_triple (g : GameState) :
    execute_play_switch g PLAY_TRIPLE
      = some (play_effect g ⟨0, 0, 1⟩ 0 0 1, g.bases.past_third 3) := by
  simp only [execute_play_switch, calculate_runs_scored_eq]
  obtain ⟨vt, ht, vs, hs, inn, ib, outs, ⟨b0, b1, b2⟩, vh, hh, ve, he, cb, r1, r2, hr, hhit, herr⟩ := g
  by_cases hb : ib = 0 <;>
    simp [play_effect, incr_hits, clear_bases, Bases.set, hb]

theorem switch_fielders_choice (g : GameState) :
    execute_play_switch g PLAY_FIELDERS_CHOICE
      = some ({ g with
          outs := g.outs + 1
          bases := ⟨1, if g.bases.b0 ≠ 0 then 1 else 0, if g.bases.b1 ≠ 0 then 1 else 0⟩ },
          0) := by
  simp only [execute_play_switch, advance_runners_one]
  simp [Bases.set]

theorem switch_sacrifice_fly (g : GameState) :
    execute_play_switch g PLAY_SACRIFICE_FLY
      = some ({ g with outs := g.outs + 1, bases := ⟨g.bases.b0, g.bases.b1, 0⟩ },
          if g.bases.b2 ≠ 0 then 1 else 0) := by
  obtain ⟨vt, ht, vs, hs, inn, ib, outs, ⟨b0, b1, b2⟩, vh, hh, ve, he, cb, r1, r2, hr, hhit, herr⟩ := g
  by_cases h2 : b2 = 0 <;> simp [execute_play_switch, Bases.set, h2]

theorem add_runs_play_effect (g : GameState) (b : Bases) (r o h : Int) :
    add_runs (play_effect g b 0 o h) r = play_effect g b r o h := by
  obtain ⟨vt, ht, vs, hs, inn, ib, outs, ⟨b0, b1, b2⟩, vh, hh, ve, he, cb, r1, r2, hr, hhit, herr⟩ := g
  by_cases hb : ib = 0 <;> simp [add_runs, play_effect, hb]

theorem add_runs_outs_bases (g : GameState) (b : Bases) (r o : Int) :
    add_runs { g with outs := g.outs + o, bases := b } r = play_effect g b r o 0 := by
  obtain ⟨vt, ht, vs, hs, inn, ib, outs, ⟨b0, b1, b2⟩, vh, hh, ve, he, cb, r1, r2, hr, hhit, herr⟩ := g
  by_cases hb : ib = 0 <;> simp [add_runs, play_effect, hb]

theorem play_effect_zero (g : GameState) (b : Bases) (o : Int) :
    play_effect g b 0 o 0 = { g with outs := g.outs + o, bases := b } := by
  obtain ⟨vt, ht, vs, hs, inn, ib, outs, ⟨b0, b1, b2⟩, vh, hh, ve, he, cb, r1, r2, hr, hhit, herr⟩ := g
  by_cases hb : ib = 0 <;> simp [play_effect, hb]

/-- C11: for 0/1 flags `[b0,b1,b2]` a single leaves `[1,b0,b1]` and scores `b2`, a
double leaves `[0,1,b0]` and scores `b1+b2`, a triple leaves `[0,0,1]` and scores
`b0+b1+b2`; these run counts are the runners on a base `i` with `i + n ≥ 3`; outs
are unchanged, the batting team's hits and the half-inning hits grow by 1, the
runs go to the batting team's score and the half-inning runs, nothing else changes. -/
theorem C11_base_hits (g : GameState) (s : Rng) (batter : Player) (hb : g.bases.flags01) :
    (∃ s', execute_play g s PLAY_SINGLE batter
      = some (play_effect g ⟨1, g.bases.b0, g.bases.b1⟩ g.bases.b2 0 1, s')) ∧
    (∃ s', execute_play g s PLAY_DOUBLE batter
      = some (play_effect g ⟨0, 1, g.bases.b0⟩ (g.bases.b1 + g.bases.b2) 0 1, s')) ∧
    (∃ s', execute_play g s PLAY_TRIPLE batter
      = some (play_effect g ⟨0, 0, 1⟩ (g.bases.b0 + g.bases.b1 + g.bases.b2) 0 1, s')) ∧
    g.bases.past_third 1 = g.bases.b2 ∧
    g.bases.past_third 2 = g.bases.b1 + g.bases.b2 ∧
    g.bases.past_third 3 = g.bases.b0 + g.bases.b1 + g.bases.b2 := by
  have p1 := past_third_one g.bases hb
  have p2 := past_third_two g.bases hb
  have p3 := past_third_three g.bases hb
  obtain ⟨h0, h1, -⟩ := hb
  refine ⟨?_, ?_, ?_, p1, p2, p3⟩
  · obtain ⟨s', hs'⟩ := execute_play_of_switch (switch_single g) s batter
    refine ⟨s', ?_⟩
    rw [hs', add_runs_play_effect, flag_eq_ite h0, flag_eq_ite h1, p1]
  · obtain ⟨s', hs'⟩ := execute_play_of_switch (switch_double g) s batter
    refine ⟨s', ?_⟩
    rw [hs', add_runs_play_effect, flag_eq_ite h0, p2]
  · obtain ⟨s', hs'⟩ := execute_play_of_switch (switch_triple g) s batter
    refine ⟨s', ?_⟩
    rw [hs', add_runs_play_effect, p3]

/-- Witness for C11: runners on first and third. -/
theorem C11_base_hits_witness :
    (example_state ⟨1, 0, 1⟩ 0).bases.flags01 ∧
    ∃ s', execute_play (example_state ⟨1, 0, 1⟩ 0) ⟨0, 0⟩ PLAY_SINGLE (example_player 300)
      = some (play_effect (example_state ⟨1, 0, 1⟩ 0) ⟨1, 1, 0⟩ 1 0 1, s') :=
  ⟨by decide,
    (C11_base_hits (example_state ⟨1, 0, 1⟩ 0) ⟨0, 0⟩ (example_player 300) (by decide)).1⟩

/-- C12: for 0/1 flags `[b0,b1,b2]`, `PLAY_FIELDERS_CHOICE` adds exactly 1 out and
leaves the bases `[1,b0,b1]`; nothing else changes (no run, hit or error). -/
theorem C12_fielders_choice (g : GameState) (s : Rng) (batter : Player)
    (hb : g.bases.flags01) :
    ∃ s', execute_play g s PLAY_FIELDERS_CHOICE batter
      = some ({ g with outs := g.outs + 1, bases := ⟨1, g.bases.b0, g.bases.b1⟩ }, s') := by
  obtain ⟨h0, h1, -⟩ := hb
  obtain ⟨s', hs'⟩ := execute_play_of_switch (switch_fielders_choice g) s batter
  refine ⟨s', ?_⟩
  rw [hs', add_runs_outs_bases, play_effect_zero, flag_eq_ite h0, flag_eq_ite h1]

/-- Witness for C12: runners on first and third, one out. -/
theorem C12_fielders_choice_witness :
    (example_state ⟨1, 0, 1⟩ 1).bases.flags01 ∧
    ∃ s', execute_play (example_state ⟨1, 0, 1⟩ 1) ⟨0, 0⟩ PLAY_FIELDERS_CHOICE
        (example_player 300)
      = some ({ example_state ⟨1, 0, 1⟩ 1 with outs := 1 + 1, bases := ⟨1, 1, 0⟩ }, s') :=
  ⟨by decide,
    C12_fielders_choice (example_state ⟨1, 0, 1⟩ 1) ⟨0, 0⟩ (example_player 300) (by decide)⟩

/-- C13: `PLAY_SACRIFICE_FLY` adds exactly 1 out; it scores 1 run and empties third
if third was occupied, and scores 0 otherwise; first and second keep their
occupancy (the batter is not put on base) and nothing else changes. -/
theorem C13_sacrifice_fly (g : GameState) (s : Rng) (batter : Player) :
    (∃ s', execute_play g s PLAY_SACRIFICE_FLY batter
      = some (play_effect g ⟨g.bases.b0, g.bases.b1, 0⟩ (if g.bases.b2 ≠ 0 then 1 else 0) 1 0,
          s')) ∧
    (g.bases.b2 = 0 → (⟨g.bases.b0, g.bases.b1, 0⟩ : Bases) = g.bases) := by
  refine ⟨?_, fun h => ?_⟩
  · obtain ⟨s', hs'⟩ := execute_play_of_switch (switch_sacrifice_fly g) s batter
    refine ⟨s', ?_⟩
    rw [hs', add_runs_outs_bases]
  · rw [← h]

/-! ## The stealing step and the at-bat -/

theorem play_at_bat_eq (g : GameState) (s : Rng) (batter : Player) :
    play_at_bat g s batter
      = match stealing_step g s with
        | none => none
        | some (g1, s1) => resolve_at_bat g1 s1 batter := by
  unfold play_at_bat stealing_step
  rw [random_number_eq s 1 12 (by decide)]
  simp only
  split
  · rfl
  · rw [random_number_eq _ 1 20 (by decide)]
    simp only
    split
    · rfl
    · rw [random_number_eq _ 1 25 (by decide)]
      simp only
      split
      · rename_i h3
        rw [if_neg (by omega)]
      · rfl

theorem stealing_step_outs (g : GameState) (s : Rng) :
    ∃ g1 s1, stealing_step g s = some (g1, s1) ∧ g.outs ≤ g1.outs ∧
      (g.outs ≤ 2 → g1.outs ≤ 2) := by
  unfold stealing_step
  rw [random_number_eq s 1 12 (by decide)]
  simp only
  split
  · exact ⟨_, _, rfl, le_refl _, fun h => h⟩
  · rw [random_number_eq _ 1 20 (by decide)]
    simp only
    split
    · exact ⟨_, _, rfl, le_refl _, fun h => h⟩
    · rw [random_number_eq _ 1 25 (by decide)]
      simp only
      split
      · rename_i h3
        refine ⟨_, _, rfl, ?_, fun _ => ?_⟩
        · show g.outs ≤ g.outs + 1
          omega
        · show g.outs + 1 ≤ 2
          omega
      · exact ⟨_, _, rfl, le_refl _, fun h => h⟩

/-- C14 fails on the code: with runners on first and second, third empty, no outs
and engine state (2, 2), the first branch is closed (second is occupied) and the
second draw of the stealing step is 1, so the step
sets `bases[1] = 1; bases[0] = 0`: the runner on first is gone, second was already
occupied, no out is recorded, and runners plus outs drop from 2 to 1. -/
theorem C14_stealing_step_loses_runner :
    (random_number ⟨2, 2⟩ 1 12).map Prod.fst = some 1 ∧
    (random_number (random_step ⟨2, 2⟩) 1 20).map Prod.fst = some 1 ∧
    stealing_step (example_state ⟨1, 1, 0⟩ 0) ⟨2, 2⟩
      = some (example_state ⟨0, 1, 0⟩ 0, ⟨1495354192, 951188000⟩) ∧
    play_at_bat (example_state ⟨1, 1, 0⟩ 0) ⟨2, 2⟩ (example_player 300)
      = resolve_at_bat (example_state ⟨0, 1, 0⟩ 0) ⟨1495354192, 951188000⟩ (example_player 300) ∧
    (example_state ⟨1, 1, 0⟩ 0).bases.occupied + (example_state ⟨1, 1, 0⟩ 0).outs = 2 ∧
    (example_state ⟨0, 1, 0⟩ 0).bases.occupied + (example_state ⟨0, 1, 0⟩ 0).outs = 1 := by
  decide

/-! ## Score accounting -/

theorem past_third_nonneg (b : Bases) (n : Int) : 0 ≤ b.past_third n := by
  unfold Bases.past_third
  have h : ∀ p : Prop, [Decidable p] → (0 : Int) ≤ (if p then 1 else 0) := by
    intro p _
    split <;> decide
  have h0 := h (b.b0 ≠ 0 ∧ 0 + n ≥ 3)
  have h1 := h (b.b1 ≠ 0 ∧ 1 + n ≥ 3)
  have h2 := h (b.b2 ≠ 0 ∧ 2 + n ≥ 3)
  omega

theorem occupied_nonneg (b : Bases) : 0 ≤ b.occupied := by
  unfold Bases.occupied
  have h : ∀ p : Prop, [Decidable p] → (0 : Int) ≤ (if p then 1 else 0) := by
    intro p _
    split <;> decide
  have h0 := h (b.b0 ≠ 0)
  have h1 := h (b.b1 ≠ 0)
  have h2 := h (b.b2 ≠ 0)
  omega

theorem walk_runs_nonneg (b : Bases) : 0 ≤ walk_runs b := by
  unfold walk_runs
  split <;> decide

theorem accounts_play_effect (g : GameState) (b : Bases) (play : PlayType) (r : Int)
    (he : play ≠ PLAY_ERROR) :
    accounts g (play_effect g b r (play_outs play) (if is_hit play = true then 1 else 0))
      play r := by
  obtain ⟨vt, ht, vs, hs, inn, ib, outs, ⟨b0, b1, b2⟩, vh, hh', ve, he', cb, r1, r2, hr, hhit,
    herr⟩ := g
  by_cases hb : ib = 0 <;>
    simp [accounts, play_effect, batting_score, fielding_score, batting_hits, fielding_hits,
      batting_errors, fielding_errors, hb, he]

theorem switch_error (g : GameState) :
    ∃ g1, execute_play_switch g PLAY_ERROR = some (g1, g.bases.past_third 1) ∧
      accounts g g1 PLAY_ERROR 0 := by
  simp only [execute_play_switch, calculate_runs_scored_eq, advance_runners_one]
  refine ⟨_, rfl, ?_⟩
  obtain ⟨vt, ht, vs, hs, inn, ib, outs, ⟨b0, b1, b2⟩, vh, hh', ve, he', cb, r1, r2, hr, hhit,
    herr⟩ := g
  by_cases hb : ib = 0 <;>
    simp [accounts, incr_errors, batting_score, fielding_score, batting_hits, fielding_hits,
      batting_errors, fielding_errors, play_outs, is_hit, hb]

theorem add_runs_accounts {g g1 : GameState} {play : PlayType} (r : Int)
    (h : accounts g g1 play 0) : accounts g (add_runs g1 r) play r := by
  obtain ⟨a1, a2, a3, a4, a5, a6, a7, a8, a9⟩ := h
  by_cases hb : g.is_bottom = 0
  · have hb1 : g1.is_bottom = 0 := by rw [a2, hb]
    simp only [batting_score, fielding_score, batting_hits, fielding_hits, batting_errors,
      fielding_errors, hb, hb1, ne_eq, not_true_eq_false, if_false, add_zero] at a3 a4 a5 a6 a7 a8 a9
    simp only [accounts, add_runs, batting_score, fielding_score, batting_hits, fielding_hits,
      batting_errors, fielding_errors, hb, hb1, ne_eq, not_true_eq_false, if_false]
    exact ⟨a1, trivial, by omega, by omega, a5, a6, a7, a8, a9⟩
  · have hb1 : ¬ g1.is_bottom = 0 := by rw [a2]; exact hb
    simp only [batting_score, fielding_score, batting_hits, fielding_hits, batting_errors,
      fielding_errors, hb, hb1, ne_eq, not_false_eq_true, if_true, add_zero] at a3 a4 a5 a6 a7 a8 a9
    simp only [accounts, add_runs, batting_score, fielding_score, batting_hits, fielding_hits,
      batting_errors, fielding_errors, hb, hb1, ne_eq, not_false_eq_true, if_true]
    exact ⟨a1, a2, by omega, by omega, a5, a6, a7, a8, a9⟩

theorem switch_home_run (g : GameState) :
    execute_play_switch g PLAY_HOME_RUN
      = some (play_effect g ⟨0, 0, 0⟩ 0 0 1, 1 + g.bases.occupied) := by
  simp only [execute_play_switch, home_run_runs_eq]
  obtain ⟨vt, ht, vs, hs, inn, ib, outs, ⟨b0, b1, b2⟩, vh, hh, ve, he, cb, r1, r2, hr, hhit, herr⟩ := g
  by_cases hb : ib = 0 <;> simp [play_effect, incr_hits, clear_bases, hb]

theorem accounts_outs_bases (g : GameState) (b : Bases) (play : PlayType)
    (hh : is_hit play = false) (he : play ≠ PLAY_ERROR) :
    accounts g { g with outs := g.outs + play_outs play, bases := b } play 0 := by
  have := accounts_play_effect g b play 0 he
  rw [hh] at this
  simp only [Bool.false_eq_true, if_false] at this
  rw [play_effect_zero] at this
  exact this

theorem accounts_bases (g : GameState) (b : Bases) (play : PlayType)
    (hh : is_hit play = false) (he : play ≠ PLAY_ERROR) (ho : play_outs play = 0) :
    accounts g { g with bases := b } play 0 := by
  have := accounts_outs_bases g b play hh he
  rw [ho] at this
  simpa using this

theorem execute_play_switch_accounts (g : GameState) (play : PlayType) :
    ∃ g1 runs, execute_play_switch g play = some (g1, runs) ∧ 0 ≤ runs ∧
      accounts g g1 play 0 := by
  cases play
  case PLAY_SINGLE =>
    exact ⟨_, _, switch_single g, past_third_nonneg _ _,
      accounts_play_effect g _ PLAY_SINGLE 0 (by decide)⟩
  case PLAY_DOUBLE =>
    exact ⟨_, _, switch_double g, past_third_nonneg _ _,
      accounts_play_effect g _ PLAY_DOUBLE 0 (by decide)⟩
  case PLAY_TRIPLE =>
    exact ⟨_, _, switch_triple g, past_third_nonneg _ _,
      accounts_play_effect g _ PLAY_TRIPLE 0 (by decide)⟩
  case PLAY_HOME_RUN =>
    refine ⟨_, _, switch_home_run g, ?_, accounts_play_effect g _ PLAY_HOME_RUN 0 (by decide)⟩
    have := occupied_nonneg g.bases
    omega
  case PLAY_WALK =>
    refine ⟨_, _, (show execute_play_switch g PLAY_WALK = some (walk_case g) from rfl).trans
      (by rw [walk_case_eq]), walk_runs_nonneg _, accounts_bases g _ PLAY_WALK rfl (by decide) rfl⟩
  case PLAY_ERROR =>
    obtain ⟨g1, h1, h2⟩ := switch_error g
    exact ⟨g1, _, h1, past_third_nonneg _ _, h2⟩
  case PLAY_DOUBLE_PLAY =>
    exact ⟨_, _, rfl, le_refl _, accounts_outs_bases g ⟨0, 0, 0⟩ PLAY_DOUBLE_PLAY rfl (by decide)⟩
  case PLAY_TRIPLE_PLAY =>
    exact ⟨_, _, rfl, le_refl _, accounts_outs_bases g ⟨0, 0, 0⟩ PLAY_TRIPLE_PLAY rfl (by decide)⟩
  case PLAY_FIELDERS_CHOICE =>
    exact ⟨_, _, switch_fielders_choice g, le_refl _,
      accounts_outs_bases g _ PLAY_FIELDERS_CHOICE rfl (by decide)⟩
  case PLAY_SACRIFICE_FLY =>
    refine ⟨_, _, switch_sacrifice_fly g, ?_,
      accounts_outs_bases g _ PLAY_SACRIFICE_FLY rfl (by decide)⟩
    split <;> decide
  case PLAY_GROUND_OUT =>
    exact ⟨_, _, rfl, le_refl _, accounts_outs_bases g g.bases PLAY_GROUND_OUT rfl (by decide)⟩
  case PLAY_FLY_OUT =>
    exact ⟨_, _, rfl, le_refl _, accounts_outs_bases g g.bases PLAY_FLY_OUT rfl (by decide)⟩
  case PLAY_LINE_OUT =>
    exact ⟨_, _, rfl, le_refl _, accounts_outs_bases g g.bases PLAY_LINE_OUT rfl (by decide)⟩
  case PLAY_STRIKEOUT_SWINGING =>
    exact ⟨_, _, rfl, le_refl _,
      accounts_outs_bases g g.bases PLAY_STRIKEOUT_SWINGING rfl (by decide)⟩
  case PLAY_STRIKEOUT_CALLED =>
    exact ⟨_, _, rfl, le_refl _,
      accounts_outs_bases g g.bases PLAY_STRIKEOUT_CALLED rfl (by decide)⟩

theorem execute_play_accounts (g : GameState) (s : Rng) (play : PlayType) (batter : Player) :
    ∃ g' s' r, execute_play g s play batter = some (g', s') ∧ 0 ≤ r ∧ accounts g g' play r := by
  obtain ⟨g1, runs, h1, h2, h3⟩ := execute_play_switch_accounts g play
  obtain ⟨s', hs'⟩ := execute_play_of_switch h1 s batter
  exact ⟨_, s', runs, hs', h2, add_runs_accounts runs h3⟩

/-- C16: for every state and play category `execute_play` returns; it adds the
same run count `r ≥ 0` to the batting team's score (home if `is_bottom`, else
visiting) and to `half_inning_runs`, leaves the other team's score, hits and
errors unchanged, adds 1 to the batting side's hits exactly for single, double,
triple and home run, and 1 to its error counter exactly for `PLAY_ERROR`. -/
theorem C16_score_accounting (g : GameState) (s : Rng) (play : PlayType) (batter : Player) :
    ∃ g' s' r, execute_play g s play batter = some (g', s') ∧ 0 ≤ r ∧
      g'.is_bottom = g.is_bottom ∧
      batting_score g' = batting_score g + r ∧
      g'.half_inning_runs = g.half_inning_runs + r ∧
      fielding_score g' = fielding_score g ∧
      fielding_hits g' = fielding_hits g ∧
      fielding_errors g' = fielding_errors g ∧
      batting_hits g' = batting_hits g +
        (if play ∈ [PLAY_SINGLE, PLAY_DOUBLE, PLAY_TRIPLE, PLAY_HOME_RUN] then 1 else 0) ∧
      batting_errors g' = batting_errors g + (if play = PLAY_ERROR then 1 else 0) := by
  obtain ⟨g', s', r, h1, h2, -, a2, a3, a4, a5, a6, a7, a8, a9⟩ :=
    execute_play_accounts g s play batter
  refine ⟨g', s', r, h1, h2, a2, a3, a4, a5, a6, a7, ?_, a9⟩
  rw [a8]
  cases play <;> rfl

/-! ## Outs stay in range -/

theorem play_of_rolls_precondition (batter : Player) (g : GameState) (roll second : Int) :
    situational_precondition g (play_of_rolls batter g roll second) := by
  unfold play_of_rolls
  simp only
  split
  · exact hit_type_result_precondition g second
  · exact out_type_result_precondition g second

theorem play_outs_bound (g : GameState) (play : PlayType)
    (hp : situational_precondition g play) (h2 : g.outs ≤ 2) :
    0 ≤ play_outs play ∧ g.outs + play_outs play ≤ 3 := by
  cases play <;> simp only [play_outs, situational_precondition] at hp ⊢ <;> omega

theorem play_at_bat_steps (g : GameState) (s : Rng) (batter : Player) (h2 : g.outs ≤ 2) :
    ∃ g1 s1 play s2 g' s', stealing_step g s = some (g1, s1) ∧
      g.outs ≤ g1.outs ∧ g1.outs ≤ 2 ∧
      determine_play_result batter g1 s1 = some (play, s2) ∧
      execute_play g1 s2 play batter = some (g', s') ∧
      play_at_bat g s batter = some (g', s') ∧
      g'.outs = g1.outs + play_outs play ∧
      g.outs ≤ g'.outs ∧ g'.outs ≤ 3 := by
  obtain ⟨g1, s1, hst, ho1, ho2⟩ := stealing_step_outs g s
  have hdet := determine_play_result_eq batter g1 s1
  have hpre := play_of_rolls_precondition batter g1 (random_value s1 1 1000)
    (random_value (random_step s1) 1 100)
  obtain ⟨g', s', r, hex, -, hacc, -⟩ := execute_play_accounts g1 (random_step (random_step s1))
    (play_of_rolls batter g1 (random_value s1 1 1000) (random_value (random_step s1) 1 100))
    batter
  obtain ⟨hb1, hb2⟩ := play_outs_bound g1 _ hpre (ho2 h2)
  refine ⟨g1, s1, _, _, g', s', hst, ho1, ho2 h2, hdet, hex, ?_, hacc, by omega, by omega⟩
  rw [play_at_bat_eq, hst]
  simp only [resolve_at_bat, hdet, hex]

theorem half_inning_loop_outs (home : Bool) :
    ∀ (fuel : Nat) (g : GameState) (s : Rng) (g' : GameState) (s' : Rng) (tr : List Int),
      g.outs ≤ 3 → half_inning_loop home fuel g s = some (g', s', tr) → g'.outs = 3 := by
  intro fuel
  induction fuel with
  | zero =>
    intro g s g' s' tr h3 h
    unfold half_inning_loop at h
    split at h
    · exact absurd h (by simp)
    · simp only [Option.some.injEq, Prod.mk.injEq] at h
      obtain ⟨rfl, -, -⟩ := h
      omega
  | succ n ih =>
    intro g s g' s' tr h3 h
    unfold half_inning_loop at h
    split at h
    · rename_i hlt
      split at h
      · exact absurd h (by simp)
      · split at h
        · exact absurd h (by simp)
        · rename_i _ batter hbat _ g1 s1 hab
          simp only at h
          split at h
          · exact absurd h (by simp)
          · rename_i g3 s3 tr' hrec
            simp only [Option.some.injEq, Prod.mk.injEq] at h
            obtain ⟨rfl, -, -⟩ := h
            obtain ⟨_, _, _, _, ga, sa, -, -, -, -, -, hpa, -, -, hle⟩ :=
              play_at_bat_steps g s batter (by omega)
            rw [hab] at hpa
            simp only [Option.some.injEq, Prod.mk.injEq] at hpa
            obtain ⟨rfl, -⟩ := hpa
            refine ih _ _ _ _ _ ?_ hrec
            exact hle
    · simp only [Option.some.injEq, Prod.mk.injEq] at h
      obtain ⟨rfl, -, -⟩ := h
      omega

/-- C15: from a state with at most 2 outs, `play_at_bat` returns; its stealing
step leaves at most 2 outs (caught stealing is never the third out), then exactly
one category is drawn by `determine_play_result` and applied by `execute_play`;
the outs afterwards are between the old value and 3. Every half-inning loop that
returns, from such a state or from the start of a half, ends with exactly 3 outs. -/
theorem C15_outs_in_range (g : GameState) (s : Rng) (batter : Player) (h2 : g.outs ≤ 2) :
    (∃ g1 s1 play s2 g' s', stealing_step g s = some (g1, s1) ∧
      g.outs ≤ g1.outs ∧ g1.outs ≤ 2 ∧
      determine_play_result batter g1 s1 = some (play, s2) ∧
      execute_play g1 s2 play batter = some (g', s') ∧
      play_at_bat g s batter = some (g', s') ∧
      g.outs ≤ g'.outs ∧ g'.outs ≤ 3) ∧
    (∀ (home : Bool) (fuel : Nat) (s0 : Rng) (gf : GameState) (sf : Rng) (tr : List Int),
      half_inning_loop home fuel g s0 = some (gf, sf, tr) → gf.outs = 3) ∧
    (∀ (home : Bool) (fuel : Nat) (g0 : GameState) (ib : Int) (s0 : Rng) (gf : GameState)
      (sf : Rng) (tr : List Int),
      half_inning_loop home fuel (start_half g0 ib) s0 = some (gf, sf, tr) → gf.outs = 3) := by
  refine ⟨?_, ?_, ?_⟩
  · obtain ⟨g1, s1, play, s2, g', s', a1, a2, a3, a4, a5, a6, -, a8, a9⟩ :=
      play_at_bat_steps g s batter h2
    exact ⟨g1, s1, play, s2, g', s', a1, a2, a3, a4, a5, a6, a8, a9⟩
  · intro home fuel s0 gf sf tr h
    exact half_inning_loop_outs home fuel g s0 gf sf tr (by omega) h
  · intro home fuel g0 ib s0 gf sf tr h
    exact half_inning_loop_outs home fuel _ s0 gf sf tr (by simp [start_half]) h

/-- Witness for C15: runner on first, one out. -/
theorem C15_outs_in_range_witness :
    (example_state ⟨1, 0, 0⟩ 1).outs ≤ 2 ∧
    ∃ g1 s1 play s2 g' s', stealing_step (example_state ⟨1, 0, 0⟩ 1) ⟨5, 9⟩ = some (g1, s1) ∧
      (example_state ⟨1, 0, 0⟩ 1).outs ≤ g1.outs ∧ g1.outs ≤ 2 ∧
      determine_play_result (example_player 300) g1 s1 = some (play, s2) ∧
      execute_play g1 s2 play (example_player 300) = some (g', s') ∧
      play_at_bat (example_state ⟨1, 0, 0⟩ 1) ⟨5, 9⟩ (example_player 300) = some (g', s') ∧
      (example_state ⟨1, 0, 0⟩ 1).outs ≤ g'.outs ∧ g'.outs ≤ 3 :=
  ⟨by decide,
    (C15_outs_in_range (example_state ⟨1, 0, 0⟩ 1) ⟨5, 9⟩ (example_player 300) (by decide)).1⟩

/-! ## Pseudorandom engine -/

theorem random_step_lt (s : Rng) :
    (random_step s).seed1 < 2147483648 ∧ (random_step s).seed2 < 2147483648 := by
  constructor
  · exact Nat.lt_of_le_of_lt Nat.and_le_right (by decide)
  · exact Nat.lt_of_le_of_lt Nat.and_le_right (by decide)

theorem random_number_spec (s : Rng) (min max : Int) (h : valid_request (min, max)) :
    toU32 (max - min + 1) ≠ 0 ∧
    random_number s min max
      = some (min + ((((random_step s).seed1 ^^^ (random_step s).seed2 : Nat) : Int)
          % (max - min + 1)), random_step s) ∧
    0 ≤ (((random_step s).seed1 ^^^ (random_step s).seed2 : Nat) : Int) % (max - min + 1) ∧
    (((random_step s).seed1 ^^^ (random_step s).seed2 : Nat) : Int) % (max - min + 1)
      < max - min + 1 := by
  obtain ⟨h1, h2, h3, h4⟩ := h
  simp only at h1 h2 h3 h4
  have hm : toU32 (max - min + 1) = (max - min + 1).toNat := by
    unfold toU32
    congr 1
    omega
  have hm0 : toU32 (max - min + 1) ≠ 0 := by
    rw [hm]
    omega
  generalize hc : (random_step s).seed1 ^^^ (random_step s).seed2 = c
  have hk1 : ((c % (max - min + 1).toNat : Nat) : Int) = (c : Int) % (max - min + 1) := by
    rw [Int.natCast_mod, Int.toNat_of_nonneg (by omega)]
  have hlt : (c : Int) % (max - min + 1) < max - min + 1 := Int.emod_lt_of_pos _ (by omega)
  have hge : 0 ≤ (c : Int) % (max - min + 1) := Int.emod_nonneg _ (by omega)
  refine ⟨hm0, ?_, hge, hlt⟩
  unfold random_number
  simp only [hc, hm, if_neg (hm ▸ hm0)]
  congr 2
  generalize hk : c % (max - min + 1).toNat = k at hk1
  generalize (c : Int) % (max - min + 1) = k' at hk1 hlt hge
  subst hk1
  unfold toI32 toU32
  split <;> omega

/-- C17: for `int` bounds `min ≤ max` with `max - min + 1` a positive `int`, the
modulus `random_number` divides by is not zero, and it returns a value `v` with
`min ≤ v ≤ max`, from every engine state. -/
theorem C17_random_number_range (s : Rng) (min max : Int)
    (hmin : -2147483648 ≤ min) (hmax : max ≤ 2147483647) (hle : min ≤ max)
    (hrep : max - min + 1 ≤ 2147483647) :
    toU32 (max - min + 1) ≠ 0 ∧
    ∃ v s', random_number s min max = some (v, s') ∧ min ≤ v ∧ v ≤ max := by
  obtain ⟨h0, h1, h2, h3⟩ := random_number_spec s min max ⟨hmin, hmax, hle, hrep⟩
  exact ⟨h0, _, _, h1, by omega, by omega⟩

/-- Witness for C17: the first roll of an at-bat, from 1 to 1000, is 312 from the
engine state (60, 61). -/
theorem C17_random_number_range_witness :
    (random_number ⟨60, 61⟩ 1 1000).map Prod.fst = some 312 ∧
    toU32 (1000 - 1 + 1) ≠ 0 ∧
    ∃ v s', random_number ⟨60, 61⟩ 1 1000 = some (v, s') ∧ 1 ≤ v ∧ v ≤ 1000 :=
  ⟨by decide,
    C17_random_number_range ⟨60, 61⟩ 1 1000 (by decide) (by decide) (by decide) (by decide)⟩

/-- C18: for `int` bounds `min ≤ max` with `max - min + 1` a positive `int`,
`random_number` leaves `seed1 = ((s1 * 1103515245 + 12345) mod 2^32) & 0x7fffffff`
and `seed2 = ((s2 * 69069 + 1) mod 2^32) & 0x7fffffff`, whatever `min` and `max`,
and returns `min + ((seed1 XOR seed2) mod (max - min + 1))` on the new seeds; both
new seeds are below `2^31`. -/
theorem C18_engine_step (s : Rng) (min max : Int)
    (hmin : -2147483648 ≤ min) (hmax : max ≤ 2147483647) (hle : min ≤ max)
    (hrep : max - min + 1 ≤ 2147483647) :
    random_number s min max
      = some (min +
          ((((((s.seed1 * 1103515245 + 12345) % 4294967296) &&& 0x7fffffff) ^^^
            (((s.seed2 * 69069 + 1) % 4294967296) &&& 0x7fffffff) : Nat) : Int)
            % (max - min + 1)),
          { seed1 := ((s.seed1 * 1103515245 + 12345) % 4294967296) &&& 0x7fffffff
            seed2 := ((s.seed2 * 69069 + 1) % 4294967296) &&& 0x7fffffff }) ∧
    ((s.seed1 * 1103515245 + 12345) % 4294967296) &&& 0x7fffffff < 2147483648 ∧
    ((s.seed2 * 69069 + 1) % 4294967296) &&& 0x7fffffff < 2147483648 :=
  ⟨(random_number_spec s min max ⟨hmin, hmax, hle, hrep⟩).2.1, random_step_lt s⟩

/-- Witness for C18: a request from 0 to 9 in engine state (1, 2). -/
theorem C18_engine_step_witness :
    random_number ⟨1, 2⟩ 0 9 = some (3, ⟨1103527590, 138139⟩) ∧
    random_number ⟨1, 2⟩ 0 9
      = some (0 +
          ((((((1 * 1103515245 + 12345) % 4294967296) &&& 0x7fffffff) ^^^
            (((2 * 69069 + 1) % 4294967296) &&& 0x7fffffff) : Nat) : Int)
            % (9 - 0 + 1)),
          { seed1 := ((1 * 1103515245 + 12345) % 4294967296) &&& 0x7fffffff
            seed2 := ((2 * 69069 + 1) % 4294967296) &&& 0x7fffffff }) :=
  ⟨by decide,
    (C18_engine_step ⟨1, 2⟩ 0 9 (by decide) (by decide) (by decide) (by decide)).1⟩

theorem init_random_loop_ascii (mult : Nat) :
    ∀ (text : List Int) (seed : Nat), is_ascii text →
      init_random_loop mult seed text = seed_fold mult seed text := by
  intro text
  induction text with
  | nil => intro seed _; rfl
  | cons c rest ih =>
    intro seed h
    have hc : 1 ≤ c ∧ c ≤ 127 := h c (List.mem_cons_self _ _)
    have hrest : is_ascii rest := fun x hx => h x (List.mem_cons_of_mem _ hx)
    have hu : toU32 c = c.toNat := by
      unfold toU32
      congr 1
      omega
    unfold init_random_loop
    rw [if_neg (by omega), hu, ih _ hrest]
    rfl

/-- C19: for ASCII texts `init_random` sets `seed1` to the left fold of
`s ↦ (s * 31 + code c) mod 2^32` over the date text from `0x12345678` and `seed2`
to the left fold of `s ↦ (s * 37 + code c) mod 2^32` over the time text from
`0x87654321`; the previous engine state plays no part; two empty texts give the
two constants. -/
theorem C19_seeding (old : Rng) (date_str time_str : List Int)
    (hd : is_ascii date_str) (ht : is_ascii time_str) :
    init_random old date_str time_str
      = ⟨date_str.foldl (fun (s : Nat) (c : Int) => (s * 31 + c.toNat) % 4294967296) 0x12345678,
         time_str.foldl (fun (s : Nat) (c : Int) => (s * 37 + c.toNat) % 4294967296) 0x87654321⟩ ∧
    (∀ old2 : Rng, init_random old2 date_str time_str = init_random old date_str time_str) ∧
    init_random old [] [] = ⟨0x12345678, 0x87654321⟩ := by
  refine ⟨?_, fun _ => rfl, rfl⟩
  unfold init_random
  rw [init_random_loop_ascii 31 _ _ hd, init_random_loop_ascii 37 _ _ ht]
  rfl

/-- Witness for C19: the texts "111" and "343" (the defaults of `main`). -/
theorem C19_seeding_witness :
    char_codes "111" = [49, 49, 49] ∧ char_codes "343" = [51, 52, 51] ∧
    is_ascii [49, 49, 49] ∧ is_ascii [51, 52, 51] ∧
    init_random ⟨0, 0⟩ [49, 49, 49] [51, 52, 51] = ⟨2023437465, 3474223343⟩ ∧
    init_random ⟨0, 0⟩ [49, 49, 49] [51, 52, 51]
      = ⟨[49, 49, 49].foldl (fun (s : Nat) (c : Int) => (s * 31 + c.toNat) % 4294967296) 0x12345678,
         [51, 52, 51].foldl (fun (s : Nat) (c : Int) => (s * 37 + c.toNat) % 4294967296) 0x87654321⟩ :=
  ⟨by decide, by decide, by decide, by decide, by decide,
    (C19_seeding ⟨0, 0⟩ [49, 49, 49] [51, 52, 51] (by decide) (by decide)).1⟩

theorem run_requests_some :
    ∀ (reqs : List (Int × Int)) (s : Rng), (∀ r ∈ reqs, valid_request r) →
      ∃ out s', run_requests s reqs = some (out, s') ∧ out.length = reqs.length := by
  intro reqs
  induction reqs with
  | nil => intro s _; exact ⟨[], s, rfl, rfl⟩
  | cons r rest ih =>
    intro s h
    obtain ⟨min, max⟩ := r
    obtain ⟨-, h1, -, -⟩ := random_number_spec s min max (h _ (List.mem_cons_self _ _))
    obtain ⟨out, s', h2, h3⟩ := ih (random_step s) (fun x hx => h x (List.mem_cons_of_mem _ hx))
    simp only [run_requests, h1, h2]
    exact ⟨_, _, rfl, by simp [h3]⟩

/-- C20: two engines, whatever their previous states, seeded by `init_random` with
the same date and time texts and given the same sequence of valid requests both
answer every request, return the same sequence of values and end in the same
state. -/
theorem C20_engine_determinism (old1 old2 : Rng) (date_str time_str : List Int)
    (reqs : List (Int × Int)) (hreq : ∀ r ∈ reqs, valid_request r) :
    ∃ out s', run_requests (init_random old1 date_str time_str) reqs = some (out, s') ∧
      run_requests (init_random old2 date_str time_str) reqs = some (out, s') ∧
      out.length = reqs.length := by
  obtain ⟨out, s', h1, h2⟩ := run_requests_some reqs (init_random old1 date_str time_str) hreq
  exact ⟨out, s', h1, h1, h2⟩

/-- Witness for C20: engines with different histories, seeded with "111" and
"343", serve the requests (1,12), (1,1000), (1,100) alike. -/
theorem C20_engine_determinism_witness :
    (∀ r ∈ [((1 : Int), (12 : Int)), (1, 1000), (1, 100)], valid_request r) ∧
    run_requests (init_random ⟨0, 0⟩ [49, 49, 49] [51, 52, 51]) [(1, 12), (1, 1000), (1, 100)]
      = run_requests (init_random ⟨5, 9⟩ [49, 49, 49] [51, 52, 51])
          [(1, 12), (1, 1000), (1, 100)] ∧
    ∃ out s', run_requests (init_random ⟨0, 0⟩ [49, 49, 49] [51, 52, 51])
        [(1, 12), (1, 1000), (1, 100)] = some (out, s') ∧
      run_requests (init_random ⟨5, 9⟩ [49, 49, 49] [51, 52, 51])
        [(1, 12), (1, 1000), (1, 100)] = some (out, s') ∧
      out.length = [((1 : Int), (12 : Int)), (1, 1000), (1, 100)].length :=
  ⟨by decide, by decide,
    C20_engine_determinism ⟨0, 0⟩ ⟨5, 9⟩ [49, 49, 49] [51, 52, 51]
      [(1, 12), (1, 1000), (1, 100)] (by decide)⟩

/-! ## advance_runners as a shift -/

theorem advance_runners_zero (g : GameState) :
    advance_runners g 0 = some { g with bases :=
      ⟨if g.bases.b0 ≠ 0 then 1 else 0, if g.bases.b1 ≠ 0 then 1 else 0,
       if g.bases.b2 ≠ 0 then 1 else 0⟩ } := by
  obtain ⟨vt, ht, vs, hs, inn, ib, outs, ⟨b0, b1, b2⟩, vh, hh, ve, he, cb, r1, r2, hr, hhit, herr⟩ := g
  by_cases h0 : b0 = 0 <;> by_cases h1 : b1 = 0 <;> by_cases h2 : b2 = 0 <;>
    simp [advance_runners, advance_runners_body, new_bases_set, Bases.get, h0, h1, h2]

theorem advance_runners_three (g : GameState) :
    advance_runners g 3 = some { g with bases := ⟨0, 0, 0⟩ } := by
  obtain ⟨vt, ht, vs, hs, inn, ib, outs, ⟨b0, b1, b2⟩, vh, hh, ve, he, cb, r1, r2, hr, hhit, herr⟩ := g
  by_cases h0 : b0 = 0 <;> by_cases h1 : b1 = 0 <;> by_cases h2 : b2 = 0 <;>
    simp [advance_runners, advance_runners_body, new_bases_set, Bases.get, h0, h1, h2]

theorem advance_runners_shift (g : GameState) (n : Int) (h0 : 0 ≤ n) (h3 : n ≤ 3) :
    ∃ nb : Bases, advance_runners g n = some { g with bases := nb } ∧
      (∀ j : Fin 3, nb.get j ≠ 0 ↔
        ((n ≤ j.val) ∧ ∃ i : Fin 3, (i.val : Int) = j.val - n ∧ g.bases.get i ≠ 0)) ∧
      nb.flags01 ∧
      nb.occupied = g.bases.occupied - g.bases.past_third n := by
  have hn : n = 0 ∨ n = 1 ∨ n = 2 ∨ n = 3 := by omega
  rcases hn with rfl | rfl | rfl | rfl
  · refine ⟨_, advance_runners_zero g, ?_, ?_, ?_⟩
    · intro j
      fin_cases j <;> simp [Bases.get, Fin.exists_fin_succ]
    · by_cases h0 : g.bases.b0 = 0 <;> by_cases h1 : g.bases.b1 = 0 <;>
        by_cases h2 : g.bases.b2 = 0 <;> simp [Bases.flags01, h0, h1, h2]
    · by_cases h0 : g.bases.b0 = 0 <;> by_cases h1 : g.bases.b1 = 0 <;>
        by_cases h2 : g.bases.b2 = 0 <;> simp [Bases.occupied, Bases.past_third, h0, h1, h2]
  · refine ⟨_, advance_runners_one g, ?_, ?_, ?_⟩
    · intro j
      fin_cases j <;> simp [Bases.get, Fin.exists_fin_succ]
    · by_cases h0 : g.bases.b0 = 0 <;> by_cases h1 : g.bases.b1 = 0 <;>
        by_cases h2 : g.bases.b2 = 0 <;> simp [Bases.flags01, h0, h1, h2]
    · by_cases h0 : g.bases.b0 = 0 <;> by_cases h1 : g.bases.b1 = 0 <;>
        by_cases h2 : g.bases.b2 = 0 <;> simp [Bases.occupied, Bases.past_third, h0, h1, h2]
  · refine ⟨_, advance_runners_two g, ?_, ?_, ?_⟩
    · intro j
      fin_cases j <;> simp [Bases.get, Fin.exists_fin_succ]
    · by_cases h0 : g.bases.b0 = 0 <;> by_cases h1 : g.bases.b1 = 0 <;>
        by_cases h2 : g.bases.b2 = 0 <;> simp [Bases.flags01, h0, h1, h2]
    · by_cases h0 : g.bases.b0 = 0 <;> by_cases h1 : g.bases.b1 = 0 <;>
        by_cases h2 : g.bases.b2 = 0 <;> simp [Bases.occupied, Bases.past_third, h0, h1, h2]
  · refine ⟨_, advance_runners_three g, ?_, ?_, ?_⟩
    · intro j
      fin_cases j <;> simp [Bases.get, Fin.exists_fin_succ]
    · simp [Bases.flags01]
    · by_cases h0 : g.bases.b0 = 0 <;> by_cases h1 : g.bases.b1 = 0 <;>
        by_cases h2 : g.bases.b2 = 0 <;> simp [Bases.occupied, Bases.past_third, h0, h1, h2]

/-- C23: for n in 0..3 `advance_runners g n` returns; it changes no field but
`bases`; afterwards base j is occupied exactly when `j ≥ n` and base `j - n` was
occupied; the new flags are 0 or 1, and the runners left are the old ones minus
those whose new position would be 3 or more (none is moved twice, no two land on
one base). -/
theorem C23_advance_runners_shift (g : GameState) (n : Int) (h0 : 0 ≤ n) (h3 : n ≤ 3) :
    ∃ nb : Bases, advance_runners g n = some { g with bases := nb } ∧
      (∀ j : Fin 3, nb.get j ≠ 0 ↔
        ((n ≤ j.val) ∧ ∃ i : Fin 3, (i.val : Int) = j.val - n ∧ g.bases.get i ≠ 0)) ∧
      nb.flags01 ∧
      nb.occupied = g.bases.occupied - g.bases.past_third n :=
  advance_runners_shift g n h0 h3

/-- Witness for C23: runners on first and second advance by 1 to second and third. -/
theorem C23_advance_runners_shift_witness :
    advance_runners (example_state ⟨1, 1, 0⟩ 0) 1 = some (example_state ⟨0, 1, 1⟩ 0) ∧
    ∃ nb : Bases, advance_runners (example_state ⟨1, 1, 0⟩ 0) 1
        = some { example_state ⟨1, 1, 0⟩ 0 with bases := nb } ∧
      (∀ j : Fin 3, nb.get j ≠ 0 ↔
        (((1 : Int) ≤ j.val) ∧ ∃ i : Fin 3, (i.val : Int) = j.val - 1 ∧
          (example_state ⟨1, 1, 0⟩ 0).bases.get i ≠ 0)) ∧
      nb.flags01 ∧
      nb.occupied = (example_state ⟨1, 1, 0⟩ 0).bases.occupied
        - (example_state ⟨1, 1, 0⟩ 0).bases.past_third 1 :=
  ⟨by decide, C23_advance_runners_shift (example_state ⟨1, 1, 0⟩ 0) 1 (by decide) (by decide)⟩

theorem count_then_advance (g : GameState) (n : Int) (h0 : 0 ≤ n) (h3 : n ≤ 3) :
    ∃ g2, advance_runners (calculate_runs_scored g n).2 n = some g2 ∧
      advance_runners g n = some g2 ∧
      (calculate_runs_scored g n).1 = g.bases.occupied - g2.bases.occupied := by
  rw [calculate_runs_scored_eq]
  have hn : n = 0 ∨ n = 1 ∨ n = 2 ∨ n = 3 := by omega
  obtain ⟨vt, ht, vs, hs, inn, ib, outs, ⟨b0, b1, b2⟩, vh, hh, ve, he, cb, r1, r2, hr, hhit, herr⟩ := g
  rcases hn with rfl | rfl | rfl | rfl
  · rw [advance_runners_zero, advance_runners_zero]
    by_cases h0 : b0 = 0 <;> by_cases h1 : b1 = 0 <;> by_cases h2 : b2 = 0 <;>
      simp [Bases.occupied, Bases.past_third, Bases.remove_past_third, h0, h1, h2]
  · rw [advance_runners_one, advance_runners_one]
    by_cases h0 : b0 = 0 <;> by_cases h1 : b1 = 0 <;> by_cases h2 : b2 = 0 <;>
      simp [Bases.occupied, Bases.past_third, Bases.remove_past_third, h0, h1, h2]
  · rw [advance_runners_two, advance_runners_two]
    by_cases h0 : b0 = 0 <;> by_cases h1 : b1 = 0 <;> by_cases h2 : b2 = 0 <;>
      simp [Bases.occupied, Bases.past_third, Bases.remove_past_third, h0, h1, h2]
  · rw [advance_runners_three, advance_runners_three]
    by_cases h0 : b0 = 0 <;> by_cases h1 : b1 = 0 <;> by_cases h2 : b2 = 0 <;>
      simp [Bases.occupied, Bases.past_third, Bases.remove_past_third, h0, h1, h2]

/-- C24: for n in 0..3, `calculate_runs_scored g n` followed by `advance_runners`
on the state it leaves gives the same state as `advance_runners g n` alone on the
original state, and the run count returned is the number of runners that
`advance_runners g n` alone removes (occupied before minus occupied after). -/
theorem C24_count_then_advance (g : GameState) (n : Int) (h0 : 0 ≤ n) (h3 : n ≤ 3) :
    ∃ g2, advance_runners (calculate_runs_scored g n).2 n = some g2 ∧
      advance_runners g n = some g2 ∧
      (calculate_runs_scored g n).1 = g.bases.occupied - g2.bases.occupied :=
  count_then_advance g n h0 h3

/-- Witness for C24: bases loaded, advance by 2: two runs, a runner left on third. -/
theorem C24_count_then_advance_witness :
    (calculate_runs_scored (example_state ⟨1, 1, 1⟩ 0) 2).1 = 2 ∧
    advance_runners (example_state ⟨1, 1, 1⟩ 0) 2 = some (example_state ⟨0, 0, 1⟩ 0) ∧
    ∃ g2, advance_runners (calculate_runs_scored (example_state ⟨1, 1, 1⟩ 0) 2).2 2 = some g2 ∧
      advance_runners (example_state ⟨1, 1, 1⟩ 0) 2 = some g2 ∧
      (calculate_runs_scored (example_state ⟨1, 1, 1⟩ 0) 2).1
        = (example_state ⟨1, 1, 1⟩ 0).bases.occupied - g2.bases.occupied :=
  ⟨by decide, by decide,
    C24_count_then_advance (example_state ⟨1, 1, 1⟩ 0) 2 (by decide) (by decide)⟩

/-- C25: `PLAY_FIELDERS_CHOICE` adds no run to either score or to
`half_inning_runs`, whatever the bases; a runner on third is dropped from the
bases without scoring (third is afterwards occupied exactly when second was), so
the runners afterwards number those before plus 1, minus 1 if third was occupied. -/
theorem C25_fielders_choice_never_scores (g : GameState) (s : Rng) (batter : Player) :
    ∃ g' s', execute_play g s PLAY_FIELDERS_CHOICE batter = some (g', s') ∧
      g'.home_score = g.home_score ∧ g'.visiting_score = g.visiting_score ∧
      g'.half_inning_runs = g.half_inning_runs ∧
      (g'.bases.b2 ≠ 0 ↔ g.bases.b1 ≠ 0) ∧
      g'.bases.occupied = g.bases.occupied + 1 - (if g.bases.b2 ≠ 0 then 1 else 0) := by
  obtain ⟨s', hs'⟩ := execute_play_of_switch (switch_fielders_choice g) s batter
  rw [add_runs_outs_bases, play_effect_zero] at hs'
  refine ⟨_, s', hs', rfl, rfl, rfl, ?_, ?_⟩
  · by_cases h1 : g.bases.b1 = 0 <;> simp [h1]
  · by_cases h0 : g.bases.b0 = 0 <;> by_cases h1 : g.bases.b1 = 0 <;>
      by_cases h2 : g.bases.b2 = 0 <;> simp [Bases.occupied, h0, h1, h2]

/-! ## Lineup cycling -/

theorem cycle_slots_succ (c : Int) (h0 : 0 ≤ c) (h8 : c ≤ 8) (n : Nat) :
    cycle_slots c (n + 1) = c :: cycle_slots ((c + 1) % 9) n := by
  unfold cycle_slots
  rw [List.range_succ_eq_map, List.map_cons, List.map_map]
  congr 1
  · simp only [Nat.cast_zero, add_zero]
    omega
  · apply List.map_congr_left
    intro i _
    simp only [Function.comp_apply, Nat.cast_succ]
    omega

theorem cycle_slots_add (c : Int) (m n : Nat) :
    cycle_slots c (m + n) = cycle_slots c m ++ cycle_slots ((c + (m : Int)) % 9) n := by
  unfold cycle_slots
  rw [List.range_add, List.map_append, List.map_map]
  congr 1
  apply List.map_congr_left
  intro i _
  simp only [Function.comp_apply, Nat.cast_add]
  omega

theorem cycle_slots_length (c : Int) (n : Nat) : (cycle_slots c n).length = n := by
  simp [cycle_slots]

theorem cycle_slots_get (c : Int) (n i : Nat) (a : Int)
    (h : (cycle_slots c n).get? i = some a) : a = (c + (i : Int)) % 9 := by
  unfold cycle_slots at h
  rw [List.get?_eq_getElem?, List.getElem?_map] at h
  by_cases hi : i < n
  · rw [List.getElem?_range hi] at h
    simp only [Option.map_some', Option.some.injEq] at h
    exact h.symm
  · rw [List.getElem?_eq_none (by simpa using hi)] at h
    simp at h

theorem half_inning_loop_slots (home : Bool) :
    ∀ (fuel : Nat) (g : GameState) (s : Rng) (g' : GameState) (s' : Rng) (tr : List Int),
      0 ≤ g.current_batter → g.current_batter ≤ 8 →
      half_inning_loop home fuel g s = some (g', s', tr) →
      tr = cycle_slots g.current_batter tr.length ∧
      g'.current_batter = (g.current_batter + (tr.length : Int)) % 9 := by
  intro fuel
  induction fuel with
  | zero =>
    intro g s g' s' tr h0 h8 h
    unfold half_inning_loop at h
    split at h
    · exact absurd h (by simp)
    · simp only [Option.some.injEq, Prod.mk.injEq] at h
      obtain ⟨rfl, -, rfl⟩ := h
      refine ⟨rfl, ?_⟩
      simp only [List.length_nil, Nat.cast_zero, add_zero]
      omega
  | succ n ih =>
    intro g s g' s' tr h0 h8 h
    unfold half_inning_loop at h
    split at h
    · split at h
      · exact absurd h (by simp)
      · split at h
        · exact absurd h (by simp)
        · rename_i _ batter hbat _ g1 s1 hab
          simp only at h
          split at h
          · exact absurd h (by simp)
          · rename_i _ g3 s3 tr' hrec
            simp only [Option.some.injEq, Prod.mk.injEq] at h
            obtain ⟨rfl, -, rfl⟩ := h
            obtain ⟨-, -, -, -, hcb, -, -⟩ := play_at_bat_setting hab
            have hnext : Int.tmod (g1.current_batter + 1) TEAM_SIZE
                = (g.current_batter + 1) % 9 := by
              rw [hcb]
              exact Int.tmod_eq_emod (by omega) (by decide)
            obtain ⟨e1, e2⟩ := ih _ _ _ _ _ (by simp only; rw [hnext]; omega)
              (by simp only; rw [hnext]; omega) hrec
            simp only [hnext] at e1 e2
            refine ⟨?_, ?_⟩
            · rw [List.length_cons, cycle_slots_succ _ h0 h8, ← e1]
            · rw [e2, List.length_cons]
              push_cast
              omega
    · simp only [Option.some.injEq, Prod.mk.injEq] at h
      obtain ⟨rfl, -, rfl⟩ := h
      refine ⟨rfl, ?_⟩
      simp only [List.length_nil, Nat.cast_zero, add_zero]
      omega

theorem play_inning_slots {hf : Nat} {g g' : GameState} {s s' : Rng} {tv th : List Int}
    (h0 : 0 ≤ g.current_batter) (h8 : g.current_batter ≤ 8)
    (h : play_inning hf g s = some (g', s', tv, th)) :
    tv = cycle_slots g.current_batter tv.length ∧
    th = cycle_slots ((g.current_batter + (tv.length : Int)) % 9) th.length ∧
    g'.current_batter = (g.current_batter + ((tv.length + th.length : Nat) : Int)) % 9 := by
  unfold play_inning at h
  split at h
  · exact absurd h (by simp)
  · rename_i _ g1 s1 tv1 h1
    split at h
    · exact absurd h (by simp)
    · rename_i _ g2 s2 th2 h2
      simp only [Option.some.injEq, Prod.mk.injEq] at h
      obtain ⟨rfl, -, rfl, rfl⟩ := h
      obtain ⟨a1, a2⟩ := half_inning_loop_slots _ _ _ _ _ _ _
        (show 0 ≤ (start_half g 0).current_batter from h0)
        (show (start_half g 0).current_batter ≤ 8 from h8) h1
      have hs1 : (start_half g 0).current_batter = g.current_batter := rfl
      rw [hs1] at a1 a2
      have hs2 : (start_half g1 1).current_batter = g1.current_batter := rfl
      obtain ⟨b1, b2⟩ := half_inning_loop_slots _ _ _ _ _ _ _
        (show 0 ≤ (start_half g1 1).current_batter by rw [hs2, a2]; omega)
        (show (start_half g1 1).current_batter ≤ 8 by rw [hs2, a2]; omega) h2
      rw [hs2, a2] at b1 b2
      refine ⟨a1, b1, ?_⟩
      rw [b2]
      push_cast
      omega

theorem play_game_slots (hf : Nat) :
    ∀ (fuel : Nat) (g : GameState) (s : Rng) (g' : GameState) (s' : Rng) (tr : List (List Int)),
      0 ≤ g.current_batter → g.current_batter ≤ 8 →
      play_game hf fuel g s = some (g', s', tr) →
      tr.flatten = cycle_slots g.current_batter tr.flatten.length ∧
      g'.current_batter = (g.current_batter + (tr.flatten.length : Int)) % 9 ∧
      ∀ h ∈ tr, ∃ c, h = cycle_slots c h.length := by
  intro fuel
  induction fuel with
  | zero =>
    intro g s g' s' tr h0 h8 h
    unfold play_game at h
    split at h
    · exact absurd h (by simp)
    · simp only [Option.some.injEq, Prod.mk.injEq] at h
      obtain ⟨rfl, -, rfl⟩ := h
      refine ⟨rfl, ?_, fun h hh => absurd hh (List.not_mem_nil _)⟩
      simp only [List.flatten_nil, List.length_nil, Nat.cast_zero, add_zero]
      omega
  | succ n ih =>
    intro g s g' s' tr h0 h8 h
    unfold play_game at h
    split at h
    · split at h
      · exact absurd h (by simp)
      · rename_i _ g1 s1 tv th hinn
        obtain ⟨i1, i2, i3⟩ := play_inning_slots h0 h8 hinn
        have hjoin : tv ++ th = cycle_slots g.current_batter (tv.length + th.length) := by
          rw [cycle_slots_add, ← i1, ← i2]
        simp only at h
        split at h
        · simp only [Option.some.injEq, Prod.mk.injEq] at h
          obtain ⟨rfl, -, rfl⟩ := h
          refine ⟨?_, ?_, ?_⟩
          · simp only [List.flatten_cons, List.flatten_nil, List.append_nil, List.length_append]
            exact hjoin
          · simp only [List.flatten_cons, List.flatten_nil, List.append_nil, List.length_append]
            exact i3
          · intro h hh
            simp only [List.mem_cons, List.mem_singleton, List.not_mem_nil, or_false] at hh
            rcases hh with rfl | rfl
            · exact ⟨_, i1⟩
            · exact ⟨_, i2⟩
        · split at h
          · exact absurd h (by simp)
          · rename_i _ g3 s3 tr3 hrec
            simp only [Option.some.injEq, Prod.mk.injEq] at h
            obtain ⟨rfl, -, rfl⟩ := h
            have hb0 : 0 ≤ g1.current_batter := by rw [i3]; omega
            have hb8 : g1.current_batter ≤ 8 := by rw [i3]; omega
            have hih := ih { g1 with inning := g1.inning + 1 } _ _ _ _ hb0 hb8 hrec
            obtain ⟨e1, e2, e3⟩ := hih
            simp only at e1 e2
            rw [i3] at e1 e2
            refine ⟨?_, ?_, ?_⟩
            · simp only [List.flatten_cons, List.length_append]
              rw [← List.append_assoc, ← Nat.add_assoc, cycle_slots_add, ← hjoin, ← e1]
            · simp only [List.flatten_cons, List.length_append]
              rw [e2]
              push_cast
              omega
            · intro h hh
              simp only [List.mem_cons] at hh
              rcases hh with rfl | rfl | hh
              · exact ⟨_, i1⟩
              · exact ⟨_, i2⟩
              · exact e3 h hh
    · simp only [Option.some.injEq, Prod.mk.injEq] at h
      obtain ⟨rfl, -, rfl⟩ := h
      refine ⟨rfl, ?_, fun h hh => absurd hh (List.not_mem_nil _)⟩
      simp only [List.flatten_nil, List.length_nil, Nat.cast_zero, add_zero]
      omega

theorem cycle_slots_period (c : Int) (n i : Nat) (a b : Int)
    (ha : (cycle_slots c n).get? i = some a) (hb : (cycle_slots c n).get? (i + 9) = some b) :
    b = a := by
  rw [cycle_slots_get c n i a ha, cycle_slots_get c n (i + 9) b hb]
  push_cast
  omega

theorem cycle_slots_range (c : Int) (n : Nat) (a : Int) (h : a ∈ cycle_slots c n) :
    0 ≤ a ∧ a ≤ 8 := by
  unfold cycle_slots at h
  rw [List.mem_map] at h
  obtain ⟨i, -, rfl⟩ := h
  omega

/-- C21 (amended): the index is shared, so the cycle runs over consecutive
at-bats of the game, whichever team bats. From a start index in 0..8, the i-th
at-bat of the game is taken by slot `(start + i) mod 9`; every slot is in 0..8;
the slot returns to the same value after 9 consecutive at-bats, in particular
after 9 at-bats of one team within one half-inning; the index `play_game` leaves
is `(start + number of at-bats) mod 9`; each at-bat is taken by the slot after
the one before it, modulo 9, and the index left at the end is in 0..8. -/
theorem C21_lineup_cycling (hf fuel : Nat) (g : GameState) (s : Rng)
    (g' : GameState) (s' : Rng) (tr : List (List Int))
    (h0 : 0 ≤ g.current_batter) (h8 : g.current_batter ≤ 8)
    (hrun : play_game hf fuel g s = some (g', s', tr)) :
    (∀ (i : Nat) (a : Int), tr.flatten.get? i = some a →
      a = (g.current_batter + (i : Int)) % 9) ∧
    (∀ a ∈ tr.flatten, 0 ≤ a ∧ a ≤ 8) ∧
    (∀ (i : Nat) (a b : Int), tr.flatten.get? i = some a → tr.flatten.get? (i + 9) = some b →
      b = a) ∧
    (∀ h ∈ tr, ∀ (i : Nat) (a b : Int), h.get? i = some a → h.get? (i + 9) = some b → b = a) ∧
    g'.current_batter = (g.current_batter + (tr.flatten.length : Int)) % 9 ∧
    (∀ (i : Nat) (a b : Int), tr.flatten.get? i = some a → tr.flatten.get? (i + 1) = some b →
      b = (a + 1) % 9) ∧
    (0 ≤ g'.current_batter ∧ g'.current_batter ≤ 8) := by
  obtain ⟨e1, e2, e3⟩ := play_game_slots hf fuel g s g' s' tr h0 h8 hrun
  refine ⟨?_, ?_, ?_, ?_, e2, ?_, by omega⟩
  rotate_right
  · intro i a b ha hb
    rw [e1] at ha hb
    rw [cycle_slots_get _ _ i a ha, cycle_slots_get _ _ (i + 1) b hb]
    push_cast
    omega
  · intro i a ha
    rw [e1] at ha
    exact cycle_slots_get _ _ _ _ ha
  · intro a ha
    rw [e1] at ha
    exact cycle_slots_range _ _ _ ha
  · intro i a b ha hb
    rw [e1] at ha hb
    exact cycle_slots_period _ _ _ _ _ ha hb
  · intro h hh i a b ha hb
    obtain ⟨c, hc⟩ := e3 h hh
    rw [hc] at ha hb
    exact cycle_slots_period _ _ _ _ _ ha hb

/-- Witness for C21 (amended): the ten-inning example game, start index 0. -/
theorem C21_lineup_cycling_witness :
    play_game 30 12 (example_start ⟨60, 61⟩) ⟨60, 61⟩
      = some (example_final 8 7 19 20 1 1 11 2 ⟨0, 0, 0⟩ 0 0 0 (60, 61),
          ⟨1707726874, 1461938835⟩, example_trace_ten) ∧
    example_trace_ten.flatten.length = 101 ∧
    (∀ (i : Nat) (a : Int), example_trace_ten.flatten.get? i = some a →
      a = ((example_start ⟨60, 61⟩).current_batter + (i : Int)) % 9) ∧
    (∀ (i : Nat) (a b : Int), example_trace_ten.flatten.get? i = some a →
      example_trace_ten.flatten.get? (i + 9) = some b → b = a) :=
  ⟨example_game_ten, by decide,
    (C21_lineup_cycling 30 12 (example_start ⟨60, 61⟩) ⟨60, 61⟩ _ _ _ (by decide) (by decide)
      example_game_ten).1,
    (C21_lineup_cycling 30 12 (example_start ⟨60, 61⟩) ⟨60, 61⟩ _ _ _ (by decide) (by decide)
      example_game_ten).2.2.1⟩

/-- C21 as stated fails. In this game the visitors start at index 0 and take
their first nine at-bats as slots 0, 1, 2, 3 (top of the first) and 0, 1, 2, 3, 4
(top of the second); the home team batted in between, so after the visitors' nine
at-bats the index is 5, not 0: their tenth at-bat is taken by slot 5. -/
theorem C21_counterexample :
    play_game 30 9 (with_lineups (init_game ⟨0, 0⟩) example_visitors example_home) ⟨0, 0⟩
      = some (example_final 4 10 14 17 1 0 10 8 ⟨0, 0, 0⟩ 0 0 0 (0, 0),
          ⟨1252548203, 1900765859⟩, example_trace_zero) ∧
    (init_game ⟨0, 0⟩).current_batter = 0 ∧
    example_trace_zero.get? 0 = some [0, 1, 2, 3] ∧
    example_trace_zero.get? 2 = some [0, 1, 2, 3, 4, 5] ∧
    ([0, 1, 2, 3] ++ [0, 1, 2, 3, 4, 5] : List Int).get? 0 = some 0 ∧
    ([0, 1, 2, 3] ++ [0, 1, 2, 3, 4, 5] : List Int).get? 8 = some 4 ∧
    ([0, 1, 2, 3] ++ [0, 1, 2, 3, 4, 5] : List Int).get? 9 = some 5 ∧
    ([0, 1, 2, 3] ++ [0, 1, 2, 3, 4, 5] : List Int).get? 9
      ≠ ([0, 1, 2, 3] ++ [0, 1, 2, 3, 4, 5] : List Int).get? 0 :=
  ⟨example_game_zero, rfl, rfl, rfl, rfl, rfl, rfl, by decide⟩

/-! ## Termination -/

theorem random_value_roll (s : Rng) : random_value s 1 1000 ≤ 1000 := by
  obtain ⟨h0, h1, h2, h3⟩ := random_number_spec s 1 1000 (by decide)
  rw [random_number_eq s 1 1000 h0] at h1
  simp only [Option.some.injEq, Prod.mk.injEq, and_true] at h1
  omega

theorem play_outs_of_hit (p : PlayType) (h : is_hit p = true) : play_outs p = 0 := by
  cases p <;> first | rfl | exact absurd h (by decide)

theorem play_at_bat_always_hit (g : GameState) (s : Rng) (batter : Player)
    (h2 : g.outs ≤ 2) (havg : 950 ≤ batter.batting_avg)
    {g' : GameState} {s' : Rng} (h : play_at_bat g s batter = some (g', s')) :
    g'.outs ≤ 2 := by
  obtain ⟨g1, s1, play, s2, ga, sa, -, -, ho, hdet, -, hpa, houts, -, -⟩ :=
    play_at_bat_steps g s batter h2
  rw [h] at hpa
  simp only [Option.some.injEq, Prod.mk.injEq] at hpa
  obtain ⟨rfl, -⟩ := hpa
  rw [determine_play_result_eq] at hdet
  simp only [Option.some.injEq, Prod.mk.injEq] at hdet
  obtain ⟨hplay, -⟩ := hdet
  have hroll := random_value_roll s1
  have hhit : is_hit play = true := by
    rw [← hplay]
    unfold play_of_rolls
    simp only
    rw [if_pos (by omega)]
    exact hit_type_result_is_hit _
  rw [houts, play_outs_of_hit play hhit]
  omega

theorem lineup_at_mem {team : List Player} {i : Int} {p : Player}
    (h : lineup_at team i = some p) : p ∈ team := by
  unfold lineup_at at h
  split at h
  · exact absurd h (by simp)
  · exact List.get?_mem h

theorem half_inning_loop_always_hit (home : Bool) :
    ∀ (fuel : Nat) (g : GameState) (s : Rng), g.outs ≤ 2 →
      (∀ p ∈ (if home then g.home_team else g.visiting_team), 950 ≤ p.batting_avg) →
      half_inning_loop home fuel g s = none := by
  intro fuel
  induction fuel with
  | zero =>
    intro g s h2 _
    unfold half_inning_loop
    rw [if_pos (by omega)]
  | succ n ih =>
    intro g s h2 hteam
    unfold half_inning_loop
    rw [if_pos (by omega)]
    split
    · rfl
    · rename_i batter hbat
      split
      · rfl
      · rename_i g1 s1 hab
        have ho := play_at_bat_always_hit g s batter h2 (hteam batter (lineup_at_mem hbat)) hab
        obtain ⟨hv, hh, -, -, -, -, -⟩ := play_at_bat_setting hab
        simp only
        rw [ih]
        · exact ho
        · simp only
          rw [hv, hh]
          exact hteam

theorem play_game_always_hit (hf : Nat) (g : GameState) (s : Rng)
    (hloop : g.inning ≤ 9 ∨ g.visiting_score = g.home_score)
    (hteam : ∀ p ∈ g.visiting_team, 950 ≤ p.batting_avg) :
    ∀ fuel : Nat, play_game hf fuel g s = none := by
  have hinn : play_inning hf g s = none := by
    unfold play_inning
    rw [half_inning_loop_always_hit false hf (start_half g 0) s (by simp [start_half])
      (by simpa [start_half] using hteam)]
  intro fuel
  cases fuel with
  | zero =>
    unfold play_game
    rw [if_pos (by simpa [MAX_INNINGS] using hloop)]
  | succ n =>
    unfold play_game
    rw [if_pos (by simpa [MAX_INNINGS] using hloop), hinn]

theorem play_game_of_innings_played (hf : Nat) :
    ∀ (k : Nat) (g : GameState) (s : Rng) (gk : GameState) (sk : Rng),
      innings_played hf k g s = some (gk, sk) →
      gk.inning > 9 → gk.home_score ≠ gk.visiting_score →
      ∃ fuel r, play_game hf fuel g s = some r := by
  intro k
  induction k with
  | zero =>
    intro g s gk sk h h1 h2
    simp only [innings_played, Option.some.injEq, Prod.mk.injEq] at h
    obtain ⟨rfl, rfl⟩ := h
    refine ⟨0, (g, s, []), ?_⟩
    unfold play_game
    rw [if_neg]
    simp only [MAX_INNINGS, not_or, not_le]
    exact ⟨h1, fun e => h2 e.symm⟩
  | succ k ih =>
    intro g s gk sk h h1 h2
    by_cases hloop : g.inning ≤ MAX_INNINGS ∨ g.visiting_score = g.home_score
    · unfold innings_played at h
      split at h
      · exact absurd h (by simp)
      · rename_i _ g1 s1 tv th hinn
        obtain ⟨fuel, r, hr⟩ := ih _ _ _ _ h h1 h2
        by_cases hexit : ({ g1 with inning := g1.inning + 1 } : GameState).inning > MAX_INNINGS ∧
            ({ g1 with inning := g1.inning + 1 } : GameState).home_score
              ≠ ({ g1 with inning := g1.inning + 1 } : GameState).visiting_score
        · refine ⟨1, ({ g1 with inning := g1.inning + 1 }, s1, [tv, th]), ?_⟩
          unfold play_game
          rw [if_pos hloop, hinn]
          simp only
          rw [if_pos hexit]
        · obtain ⟨g3, s3, tr3⟩ := r
          refine ⟨fuel + 1, (g3, s3, tv :: th :: tr3), ?_⟩
          unfold play_game
          rw [if_pos hloop, hinn]
          simp only
          rw [if_neg hexit, hr]
    · refine ⟨0, (g, s, []), ?_⟩
      unfold play_game
      rw [if_neg hloop]

/-- C22 (amended): `play_game` returns (for some loop fuel) exactly when the run
reaches, after some number of innings, a state with `inning > 9` and unequal
scores, every half-inning up to there having reached three outs within `hf`
at-bats. Nothing in the code forces this: when the loop is entered and every
visiting batter is rated 950 or more, every at-bat is a hit, the half-inning
never reaches three outs and `play_game` never returns. -/
theorem C22_termination_criterion (hf : Nat) (g : GameState) (s : Rng) :
    ((∃ fuel r, play_game hf fuel g s = some r) ↔
      ∃ k gk sk, innings_played hf k g s = some (gk, sk) ∧ gk.inning > 9 ∧
        gk.home_score ≠ gk.visiting_score) ∧
    ((g.inning ≤ 9 ∨ g.visiting_score = g.home_score) →
      (∀ p ∈ g.visiting_team, 950 ≤ p.batting_avg) →
      ∀ fuel : Nat, play_game hf fuel g s = none) := by
  refine ⟨⟨?_, ?_⟩, play_game_always_hit hf g s⟩
  · rintro ⟨fuel, ⟨g', s', tr⟩, h⟩
    obtain ⟨⟨h1, h2⟩, -, k, h3, -, -, -⟩ := play_game_spec hf fuel g s g' s' tr h
    exact ⟨k, g', s', h3, h1, h2⟩
  · rintro ⟨k, gk, sk, h, h1, h2⟩
    exact play_game_of_innings_played hf k g s gk sk h h1 h2

/-- Witness for C22 (amended): the ten-inning example game returns, so its run
reaches a state with `inning > 9` and unequal scores. -/
theorem C22_termination_criterion_witness :
    ∃ k gk sk, innings_played 30 k (example_start ⟨60, 61⟩) ⟨60, 61⟩ = some (gk, sk) ∧
      gk.inning > 9 ∧ gk.home_score ≠ gk.visiting_score :=
  (C22_termination_criterion 30 (example_start ⟨60, 61⟩) ⟨60, 61⟩).1.mp
    ⟨12, _, example_game_ten⟩

/-- C22 as stated fails: with nine distinct visiting batters rated .950 to .958
no at-bat is ever an out, so for no engine state and no amount of fuel does
`play_game` return from the initial state. -/
theorem C22_counterexample :
    ¬ ∃ (s0 s : Rng) (hf fuel : Nat) (r : GameState × Rng × List (List Int)),
      play_game hf fuel (with_lineups (init_game s0) example_sluggers example_home) s
        = some r := by
  rintro ⟨s0, s, hf, fuel, r, h⟩
  have hinn : (with_lineups (init_game s0) example_sluggers example_home).inning ≤ 9 := by
    show (1 : Int) ≤ 9
    decide
  have hteam : ∀ p ∈ (with_lineups (init_game s0) example_sluggers example_home).visiting_team,
      950 ≤ p.batting_avg := by
    show ∀ p ∈ example_sluggers, 950 ≤ p.batting_avg
    decide
  rw [play_game_always_hit hf _ s (Or.inl hinn) hteam fuel] at h
  exact absurd h (by simp)

end Baseball
